/-
Verification of the Metrics Aggregation & Correlation Engine
(repository `MCP_Metrics`, directory `api/app`).

The Python sources are shallowly embedded:
* floats are modelled as exact rationals (`ℚ`); the Pearson coefficient,
  which divides by a square root, lives in `ℝ`;
* `datetime` values produced by `datetime.fromisoformat` are modelled by
  the structure `DT` carrying the calendar date (as a day number) and the
  absolute time in minutes; the library parser itself is a parameter
  `fromiso : String → Option DT` of the development, and a concrete
  finite interpretation `tableIso` (mapping each ISO-8601 string used in
  the witnesses to its Gregorian-calendar value) instantiates it;
* Python `dict`s keyed by date are association lists preserving
  insertion order, matching CPython semantics.
-/
import Mathlib

namespace MCPMetrics

/-- Result of parsing a timestamp: the calendar date of the instant
(`datetime.date()`, as a day count) and the absolute time in minutes
(so that `(b - a).total_seconds() / 60 = b.minutes - a.minutes`). -/
structure DT where
  date : ℤ
  minutes : ℚ
deriving DecidableEq, Repr

/-- A raw pull-request record (`dict` fields accessed with `.get`):
absent keys are `none`. `labels` is the list of label objects, each with
an optional `name` field. -/
structure RawPR where
  created_at : Option String
  merged_at : Option String
  title : Option String
  labels : List (Option String)
  user_login : Option String
deriving DecidableEq, Repr

/-- Python `value.replace("Z", "+00:00")`: every occurrence of the
single-character pattern `"Z"` is replaced. -/
def pyReplaceZ (s : String) : String :=
  ⟨s.data.foldr (fun c acc => if c = 'Z' then '+' :: '0' :: '0' :: ':' :: '0' :: '0' :: acc else c :: acc) []⟩

/-- `dora._parse_datetime`: `None` or the empty string (Python falsiness)
yield `None`; otherwise `fromisoformat` is attempted on the string with
`"Z"` replaced by `"+00:00"`, any exception yielding `None`. The library
parser is the parameter `fromiso` (returning `none` where Python raises). -/
def parse_datetime (fromiso : String → Option DT) (value : Option String) : Option DT :=
  match value with
  | none => none
  | some s => if s = "" then none else fromiso (pyReplaceZ s)

/-- Python substring containment `needle in hay` on character lists. -/
def hasSubstr (needle : List Char) : List Char → Bool
  | [] => needle.isPrefixOf []
  | c :: t => needle.isPrefixOf (c :: t) || hasSubstr needle t

/-- Python `str.lower`, as a character-wise map (the strings involved are
ASCII). -/
def pyLower (s : String) : String :=
  ⟨s.data.map Char.toLower⟩

/-- The failure heuristic of `compute_dora_from_prs` (dora.py lines 39-43):
the lowercased title contains "revert" or "rollback", or some lowercased
label name is one of bug/incident/revert/rollback. A label without a
`name` key contributes `""` (the Python `.get("name", "")` default). -/
def is_failure (pr : RawPR) : Bool :=
  let title := pyLower (pr.title.getD "")
  let labels := pr.labels.map (fun l => pyLower (l.getD ""))
  (hasSubstr "revert".data title.data || hasSubstr "rollback".data title.data) ||
    (labels.contains "bug" || labels.contains "incident" ||
      labels.contains "revert" || labels.contains "rollback")

/-- The per-day mutable accumulator of `compute_dora_from_prs`. -/
structure DayAcc where
  deployment_frequency : ℕ
  lead_times : List ℚ
  failure_count : ℕ
  failure_leads : List ℚ
deriving DecidableEq, Repr

/-- The bucket created by `per_day.setdefault(day, {...})`. -/
def DayAcc.init : DayAcc :=
  { deployment_frequency := 0, lead_times := [], failure_count := 0, failure_leads := [] }

/-- One finalized day of DORA metrics (dora.py lines 70-75). -/
structure DayMetrics where
  deployment_frequency : ℚ
  avg_lead_time_minutes : ℚ
  change_failure_rate : ℚ
  mttr_minutes : ℚ
deriving DecidableEq, Repr

/-- `dict` update with `setdefault` semantics: an existing key keeps its
position and has `f` applied to its bucket; a new key is appended with
`f DayAcc.init`. -/
def updateAssoc (f : DayAcc → DayAcc) (d : ℤ) : List (ℤ × DayAcc) → List (ℤ × DayAcc)
  | [] => [(d, f DayAcc.init)]
  | (k, v) :: t => if k = d then (k, f v) :: t else (k, v) :: updateAssoc f d t

/-- The net effect of one loop iteration on the bucket of the event's day
(dora.py lines 55-59). -/
def addEvent (lead : ℚ) (fail : Bool) (b : DayAcc) : DayAcc :=
  { deployment_frequency := b.deployment_frequency + 1
    lead_times := b.lead_times ++ [lead]
    failure_count := b.failure_count + (if fail then 1 else 0)
    failure_leads := b.failure_leads ++ (if fail then [lead] else []) }

/-- One iteration of the accumulation loop of `compute_dora_from_prs`:
a record with an unparseable or missing timestamp is skipped (`continue`). -/
def doraStep (fromiso : String → Option DT) (acc : List (ℤ × DayAcc)) (pr : RawPR) :
    List (ℤ × DayAcc) :=
  match parse_datetime fromiso pr.merged_at, parse_datetime fromiso pr.created_at with
  | some m, some c => updateAssoc (addEvent (m.minutes - c.minutes) (is_failure pr)) m.date acc
  | _, _ => acc

/-- The finalization pass of `compute_dora_from_prs` (dora.py lines 62-75):
`avg_lead` is the mean of the recorded lead times (0 on an empty list),
`cfr` divides the failure count by the deployment frequency with the
denominator replaced by 1 when it is 0 (`or 1`), `mttr` is the mean of the
failure lead times (0 when there is no failure). -/
def finalizeDay (v : DayAcc) : DayMetrics :=
  { deployment_frequency := (v.deployment_frequency : ℚ)
    avg_lead_time_minutes :=
      if v.lead_times = [] then 0 else v.lead_times.sum / (v.lead_times.length : ℚ)
    change_failure_rate :=
      (v.failure_count : ℚ) /
        ((if v.deployment_frequency = 0 then 1 else v.deployment_frequency : ℕ) : ℚ)
    mttr_minutes :=
      if v.failure_count = 0 then 0 else v.failure_leads.sum / (v.failure_count : ℚ) }

/-- `dora.compute_dora_from_prs`, parameterized by the ISO-8601 parser. -/
def compute_dora_from_prs (fromiso : String → Option DT) (prs : List RawPR) :
    List (ℤ × DayMetrics) :=
  (prs.foldl (doraStep fromiso) []).map (fun p => (p.1, finalizeDay p.2))

/-- Does a record survive the normalizer, i.e. do both of its timestamp
fields parse? -/
def bothParse (fromiso : String → Option DT) (pr : RawPR) : Bool :=
  (parse_datetime fromiso pr.merged_at).isSome && (parse_datetime fromiso pr.created_at).isSome

/-- Association-list lookup (first matching key), i.e. `dict` access. -/
def alook {α : Type} : List (ℤ × α) → ℤ → Option α
  | [], _ => none
  | (k, v) :: t, d => if k = d then some v else alook t d

/-- The normalized event stream: for each surviving record, its parsed
`merged_at`, parsed `created_at`, and the record itself. -/
def normEvents (fromiso : String → Option DT) (prs : List RawPR) : List (DT × DT × RawPR) :=
  prs.filterMap (fun pr =>
    match parse_datetime fromiso pr.merged_at, parse_datetime fromiso pr.created_at with
    | some m, some c => some (m, c, pr)
    | _, _ => none)

/-- The normalized events merged on calendar day `d`. -/
def dayEvents (fromiso : String → Option DT) (prs : List RawPR) (d : ℤ) :
    List (DT × DT × RawPR) :=
  (normEvents fromiso prs).filter (fun e => e.1.date = d)

/-- Lead time of a normalized event, in minutes. -/
def leadOf (e : DT × DT × RawPR) : ℚ :=
  e.1.minutes - e.2.1.minutes

/-- Failure classification of a normalized event. -/
def failOf (e : DT × DT × RawPR) : Bool :=
  is_failure e.2.2

/-- The reference value of day `d`'s accumulator after the whole batch. -/
def dayAccOf (fromiso : String → Option DT) (prs : List RawPR) (d : ℤ) : DayAcc :=
  { deployment_frequency := (dayEvents fromiso prs d).length
    lead_times := (dayEvents fromiso prs d).map leadOf
    failure_count := ((dayEvents fromiso prs d).filter failOf).length
    failure_leads := ((dayEvents fromiso prs d).filter failOf).map leadOf }

theorem alook_updateAssoc_self (f : DayAcc → DayAcc) (d : ℤ) (l : List (ℤ × DayAcc)) :
    alook (updateAssoc f d l) d = some (f ((alook l d).getD DayAcc.init)) := by
  induction l with
  | nil => simp [updateAssoc, alook]
  | cons hd t ih =>
    obtain ⟨k, v⟩ := hd
    by_cases hk : k = d
    · subst hk
      simp [updateAssoc, alook]
    · simp [updateAssoc, alook, hk, ih]

theorem alook_updateAssoc_ne (f : DayAcc → DayAcc) (d d' : ℤ) (l : List (ℤ × DayAcc))
    (h : d' ≠ d) : alook (updateAssoc f d l) d' = alook l d' := by
  induction l with
  | nil => simp [updateAssoc, alook, if_neg (Ne.symm h)]
  | cons hd t ih =>
    obtain ⟨k, v⟩ := hd
    by_cases hk : k = d
    · subst hk
      simp [updateAssoc, alook, Ne.symm h]
    · by_cases hk' : k = d'
      · subst hk'
        simp [updateAssoc, alook, hk]
      · simp [updateAssoc, alook, hk, hk', ih]

theorem dayAccOf_nil_events (fromiso : String → Option DT) (prs : List RawPR) (d : ℤ)
    (h : dayEvents fromiso prs d = []) : dayAccOf fromiso prs d = DayAcc.init := by
  simp [dayAccOf, h, DayAcc.init]

theorem normEvents_append (fromiso : String → Option DT) (l₁ l₂ : List RawPR) :
    normEvents fromiso (l₁ ++ l₂) = normEvents fromiso l₁ ++ normEvents fromiso l₂ := by
  simp [normEvents]

/-- Master invariant of the accumulation loop: after folding the whole
batch, day `d`'s bucket is exactly the reference accumulator `dayAccOf`,
and `d` is present exactly when some normalized event merged on `d`. -/
theorem alook_foldl_doraStep (fromiso : String → Option DT) (prs : List RawPR) (d : ℤ) :
    alook (prs.foldl (doraStep fromiso) []) d =
      if dayEvents fromiso prs d = [] then none else some (dayAccOf fromiso prs d) := by
  induction prs using List.reverseRecOn with
  | nil => simp [alook, dayEvents, normEvents]
  | append_singleton l pr ih =>
    rw [List.foldl_append]
    simp only [List.foldl_cons, List.foldl_nil]
    have hde : ∀ d', dayEvents fromiso (l ++ [pr]) d' =
        dayEvents fromiso l d' ++ (dayEvents fromiso [pr] d') := by
      intro d'
      simp [dayEvents, normEvents_append]
    rcases hm : parse_datetime fromiso pr.merged_at with _ | m
    · have hstep : doraStep fromiso (l.foldl (doraStep fromiso) []) pr =
          l.foldl (doraStep fromiso) [] := by
        simp [doraStep, hm]
      have h1 : dayEvents fromiso [pr] d = [] := by
        simp [dayEvents, normEvents, hm]
      rw [hstep, ih, hde d, h1, List.append_nil]
      rcases h2 : dayEvents fromiso l d with _ | _
      · simp [dayAccOf, hde, h1, h2]
      · simp [dayAccOf, hde, h1, h2]
    · rcases hc : parse_datetime fromiso pr.created_at with _ | c
      · have hstep : doraStep fromiso (l.foldl (doraStep fromiso) []) pr =
            l.foldl (doraStep fromiso) [] := by
          simp [doraStep, hm, hc]
        have h1 : dayEvents fromiso [pr] d = [] := by
          simp [dayEvents, normEvents, hm, hc]
        rw [hstep, ih, hde d, h1, List.append_nil]
        rcases h2 : dayEvents fromiso l d with _ | _
        · simp [dayAccOf, hde, h1, h2]
        · simp [dayAccOf, hde, h1, h2]
      · have hstep : doraStep fromiso (l.foldl (doraStep fromiso) []) pr =
            updateAssoc (addEvent (m.minutes - c.minutes) (is_failure pr)) m.date
              (l.foldl (doraStep fromiso) []) := by
          simp [doraStep, hm, hc]
        rw [hstep]
        by_cases hd : d = m.date
        · subst hd
          rw [alook_updateAssoc_self, ih]
          have h1 : dayEvents fromiso [pr] m.date = [(m, c, pr)] := by
            simp [dayEvents, normEvents, hm, hc]
          have h3 : dayAccOf fromiso (l ++ [pr]) m.date =
              addEvent (m.minutes - c.minutes) (is_failure pr) (dayAccOf fromiso l m.date) := by
            rcases hf : is_failure pr with _ | _ <;>
              simp [dayAccOf, hde, h1, addEvent, failOf, leadOf, hf]
          rcases h2 : dayEvents fromiso l m.date with _ | _
          · have h4 : dayAccOf fromiso l m.date = DayAcc.init := dayAccOf_nil_events _ _ _ h2
            simp [h2, h3, h4, hde, h1]
          · simp [h2, h3, hde, h1]
        · rw [alook_updateAssoc_ne _ _ _ _ hd, ih]
          have h1 : dayEvents fromiso [pr] d = [] := by
            simp [dayEvents, normEvents, hm, hc, Ne.symm hd]
          rcases h2 : dayEvents fromiso l d with _ | _
          · simp [dayAccOf, hde, h1, h2]
          · simp [dayAccOf, hde, h1, h2]

theorem keys_updateAssoc (f : DayAcc → DayAcc) (d : ℤ) (l : List (ℤ × DayAcc)) :
    (updateAssoc f d l).map Prod.fst =
      if d ∈ l.map Prod.fst then l.map Prod.fst else l.map Prod.fst ++ [d] := by
  induction l with
  | nil => simp [updateAssoc]
  | cons hd t ih =>
    obtain ⟨k, v⟩ := hd
    by_cases hk : k = d
    · subst hk
      simp [updateAssoc]
    · simp only [updateAssoc, if_neg hk, List.map_cons, ih, List.mem_cons]
      by_cases hmem : d ∈ t.map Prod.fst
      · simp [hmem]
      · simp [hmem, Ne.symm hk]

theorem nodup_keys_updateAssoc (f : DayAcc → DayAcc) (d : ℤ) (l : List (ℤ × DayAcc))
    (h : (l.map Prod.fst).Nodup) : ((updateAssoc f d l).map Prod.fst).Nodup := by
  rw [keys_updateAssoc]
  by_cases hmem : d ∈ l.map Prod.fst
  · simpa [hmem] using h
  · simp [hmem, List.nodup_append, h]

theorem nodup_keys_foldl (fromiso : String → Option DT) (prs : List RawPR)
    (acc : List (ℤ × DayAcc)) (h : (acc.map Prod.fst).Nodup) :
    ((prs.foldl (doraStep fromiso) acc).map Prod.fst).Nodup := by
  induction prs generalizing acc with
  | nil => simpa using h
  | cons pr t ih =>
    rw [List.foldl_cons]
    refine ih _ ?_
    rcases hm : parse_datetime fromiso pr.merged_at with _ | m <;>
      rcases hc : parse_datetime fromiso pr.created_at with _ | c <;>
        simp [doraStep, hm, hc, h, nodup_keys_updateAssoc]

theorem alook_eq_of_mem {α : Type} (l : List (ℤ × α)) (d : ℤ) (v : α)
    (h : (l.map Prod.fst).Nodup) (hm : (d, v) ∈ l) : alook l d = some v := by
  induction l with
  | nil => simp at hm
  | cons hd t ih =>
    obtain ⟨k, w⟩ := hd
    rw [List.map_cons, List.nodup_cons] at h
    by_cases hk : k = d
    · subst hk
      rcases List.mem_cons.mp hm with h1 | h1
      · have hv : v = w := congrArg Prod.snd h1
        simp [alook, hv]
      · exact absurd (List.mem_map_of_mem Prod.fst h1) h.1
    · have h1 : (d, v) ∈ t := by
        rcases List.mem_cons.mp hm with h1 | h1
        · exact absurd (congrArg Prod.fst h1).symm hk
        · exact h1
      simp [alook, hk, ih h.2 h1]

/-- Characterization of the finalized mapping: a `(day, rec)` entry of
`compute_dora_from_prs` corresponds to a nonempty group of normalized
events merged on `day`, and `rec` finalizes the reference accumulator. -/
theorem mem_compute_dora (fromiso : String → Option DT) (prs : List RawPR) (day : ℤ)
    (rec : DayMetrics) (h : (day, rec) ∈ compute_dora_from_prs fromiso prs) :
    dayEvents fromiso prs day ≠ [] ∧ rec = finalizeDay (dayAccOf fromiso prs day) := by
  obtain ⟨p, hmem, heq⟩ := List.mem_map.mp h
  obtain ⟨d0, v0⟩ := p
  have hd0 : d0 = day := congrArg Prod.fst heq
  have hv0 : finalizeDay v0 = rec := congrArg Prod.snd heq
  subst hd0
  have hlook : alook (prs.foldl (doraStep fromiso) []) d0 = some v0 :=
    alook_eq_of_mem _ _ _ (nodup_keys_foldl fromiso prs [] (by simp)) hmem
  rw [alook_foldl_doraStep] at hlook
  by_cases hne : dayEvents fromiso prs d0 = []
  · simp [hne] at hlook
  · refine ⟨hne, ?_⟩
    rw [if_neg hne] at hlook
    rw [← hv0, Option.some.inj hlook]

/-- Sum of the per-day deployment counters across the accumulator. -/
def accDF (l : List (ℤ × DayAcc)) : ℕ :=
  (l.map (fun p => p.2.deployment_frequency)).sum

theorem accDF_updateAssoc (lead : ℚ) (fail : Bool) (d : ℤ) (l : List (ℤ × DayAcc)) :
    accDF (updateAssoc (addEvent lead fail) d l) = accDF l + 1 := by
  induction l with
  | nil => simp [updateAssoc, accDF, addEvent, DayAcc.init]
  | cons hd t ih =>
    obtain ⟨k, v⟩ := hd
    by_cases hk : k = d
    · subst hk
      simp [updateAssoc, accDF, addEvent]
      omega
    · simp only [updateAssoc, if_neg hk, accDF, List.map_cons, List.sum_cons] at ih ⊢
      omega

theorem accDF_doraStep (fromiso : String → Option DT) (acc : List (ℤ × DayAcc)) (pr : RawPR) :
    accDF (doraStep fromiso acc pr) = accDF acc + (if bothParse fromiso pr then 1 else 0) := by
  rcases hm : parse_datetime fromiso pr.merged_at with _ | m <;>
    rcases hc : parse_datetime fromiso pr.created_at with _ | c <;>
      simp [doraStep, hm, hc, bothParse, accDF_updateAssoc]

theorem accDF_foldl (fromiso : String → Option DT) (prs : List RawPR)
    (acc : List (ℤ × DayAcc)) :
    accDF (prs.foldl (doraStep fromiso) acc) = accDF acc + prs.countP (bothParse fromiso) := by
  induction prs generalizing acc with
  | nil => simp
  | cons pr t ih =>
    rw [List.foldl_cons, ih, accDF_doraStep, List.countP_cons]
    omega

theorem sum_map_df_cast (l : List (ℤ × DayAcc)) :
    ((l.map (fun p => ((p.2.deployment_frequency : ℕ) : ℚ))).sum) = (accDF l : ℚ) := by
  induction l with
  | nil => simp [accDF]
  | cons hd t ih =>
    simp only [accDF, List.map_cons, List.sum_cons] at ih ⊢
    push_cast
    rw [ih]
    push_cast
    ring

/-- C1. The total of the per-day `deployment_frequency` values produced by
`compute_dora_from_prs` equals the number of input records whose
`created_at` and `merged_at` both parse. -/
theorem deployment_frequency_sum_eq_parsed_count (fromiso : String → Option DT)
    (prs : List RawPR) :
    ((compute_dora_from_prs fromiso prs).map (fun p => p.2.deployment_frequency)).sum =
      (prs.countP (bothParse fromiso) : ℚ) := by
  have h1 : ((compute_dora_from_prs fromiso prs).map (fun p => p.2.deployment_frequency)) =
      ((prs.foldl (doraStep fromiso) []).map
        (fun p => ((p.2.deployment_frequency : ℕ) : ℚ))) := by
    simp [compute_dora_from_prs, finalizeDay]
  rw [h1, sum_map_df_cast, accDF_foldl]
  simp [accDF]

/-- C8. A record with a missing or unparseable timestamp field is silently
skipped: removing it from the batch leaves the result unchanged (no partial
per-day record, no error), and an empty batch yields an empty mapping. -/
theorem unparseable_records_skipped (fromiso : String → Option DT) (pre post : List RawPR)
    (pr : RawPR)
    (h : parse_datetime fromiso pr.merged_at = none ∨
      parse_datetime fromiso pr.created_at = none) :
    compute_dora_from_prs fromiso (pre ++ pr :: post) =
        compute_dora_from_prs fromiso (pre ++ post) ∧
      compute_dora_from_prs fromiso [] = [] := by
  constructor
  · have hstep : ∀ acc, doraStep fromiso acc pr = acc := by
      intro acc
      rcases h with h | h
      · simp [doraStep, h]
      · rcases hm : parse_datetime fromiso pr.merged_at with _ | m <;> simp [doraStep, hm, h]
    simp [compute_dora_from_prs, List.foldl_append, hstep]
  · rfl

theorem mem_normEvents (fromiso : String → Option DT) (prs : List RawPR)
    (e : DT × DT × RawPR) (h : e ∈ normEvents fromiso prs) :
    e.2.2 ∈ prs ∧ parse_datetime fromiso e.2.2.merged_at = some e.1 ∧
      parse_datetime fromiso e.2.2.created_at = some e.2.1 := by
  obtain ⟨pr, hpr, hsome⟩ := List.mem_filterMap.mp h
  rcases hm : parse_datetime fromiso pr.merged_at with _ | m <;>
    rcases hc : parse_datetime fromiso pr.created_at with _ | c <;>
      rw [hm, hc] at hsome
  · simp at hsome
  · simp at hsome
  · simp at hsome
  · have he : (m, c, pr) = e := by simpa using hsome
    subst he
    exact ⟨hpr, hm, hc⟩

/-- C2 (amended). Every per-day record has `change_failure_rate ∈ [0, 1]`;
and provided every surviving event of the batch was created no later than
it was merged, `avg_lead_time_minutes` and `mttr_minutes` are nonnegative.
(Without that proviso the lead-time metrics can be negative: see the
counterexample.) -/
theorem metrics_invariants (fromiso : String → Option DT) (prs : List RawPR) (day : ℤ)
    (rec : DayMetrics) (h : (day, rec) ∈ compute_dora_from_prs fromiso prs) :
    (0 ≤ rec.change_failure_rate ∧ rec.change_failure_rate ≤ 1) ∧
      ((∀ pr ∈ prs, ∀ m c, parse_datetime fromiso pr.merged_at = some m →
          parse_datetime fromiso pr.created_at = some c → c.minutes ≤ m.minutes) →
        0 ≤ rec.avg_lead_time_minutes ∧ 0 ≤ rec.mttr_minutes) := by
  obtain ⟨hne, hrec⟩ := mem_compute_dora fromiso prs day rec h
  have hlen : 0 < (dayEvents fromiso prs day).length := List.length_pos.mpr hne
  have hle : ((dayEvents fromiso prs day).filter failOf).length ≤
      (dayEvents fromiso prs day).length := List.length_filter_le _ _
  constructor
  · rw [hrec]
    simp only [finalizeDay, dayAccOf]
    rw [if_neg (Nat.pos_iff_ne_zero.mp hlen)]
    constructor
    · positivity
    · rw [div_le_one (by exact_mod_cast hlen)]
      exact_mod_cast hle
  · intro hmono
    have hlead : ∀ x ∈ (dayEvents fromiso prs day).map leadOf, (0 : ℚ) ≤ x := by
      intro x hx
      obtain ⟨e, he, hxe⟩ := List.mem_map.mp hx
      have hmem := mem_normEvents fromiso prs e (List.mem_of_mem_filter he)
      have := hmono e.2.2 hmem.1 e.1 e.2.1 hmem.2.1 hmem.2.2
      rw [← hxe]
      simp only [leadOf]
      linarith
    have hfail : ∀ x ∈ ((dayEvents fromiso prs day).filter failOf).map leadOf, (0 : ℚ) ≤ x := by
      intro x hx
      obtain ⟨e, he, hxe⟩ := List.mem_map.mp hx
      exact hlead x (hxe ▸ List.mem_map_of_mem leadOf (List.mem_of_mem_filter he))
    rw [hrec]
    simp only [finalizeDay, dayAccOf]
    constructor
    · split
      · exact le_refl 0
      · exact div_nonneg (List.sum_nonneg hlead) (by positivity)
    · split
      · exact le_refl 0
      · exact div_nonneg (List.sum_nonneg hfail) (by positivity)

/-- C7. For every day present in the result, `change_failure_rate` is the
number of that day's events classified as failures (lowercased title
containing "revert" or "rollback", or a lowercased label name among
bug/incident/revert/rollback) divided by the day's event count, and
`mttr_minutes` is the mean lead time of the day's failure events, or 0 when
there are none. -/
theorem cfr_and_mttr_formulas (fromiso : String → Option DT) (prs : List RawPR) (day : ℤ)
    (rec : DayMetrics) (h : (day, rec) ∈ compute_dora_from_prs fromiso prs) :
    rec.change_failure_rate =
        (((dayEvents fromiso prs day).filter (fun e =>
            ((hasSubstr "revert".data (pyLower (e.2.2.title.getD "")).data ||
              hasSubstr "rollback".data (pyLower (e.2.2.title.getD "")).data) ||
             ((e.2.2.labels.map (fun l => pyLower (l.getD ""))).contains "bug" ||
              (e.2.2.labels.map (fun l => pyLower (l.getD ""))).contains "incident" ||
              (e.2.2.labels.map (fun l => pyLower (l.getD ""))).contains "revert" ||
              (e.2.2.labels.map (fun l => pyLower (l.getD ""))).contains "rollback")))).length : ℚ) /
          ((dayEvents fromiso prs day).length : ℚ) ∧
      rec.mttr_minutes =
        (if ((dayEvents fromiso prs day).filter failOf).length = 0 then 0 else
          (((dayEvents fromiso prs day).filter failOf).map leadOf).sum /
            (((dayEvents fromiso prs day).filter failOf).length : ℚ)) := by
  obtain ⟨hne, hrec⟩ := mem_compute_dora fromiso prs day rec h
  have hpred : (fun e : DT × DT × RawPR =>
      ((hasSubstr "revert".data (pyLower (e.2.2.title.getD "")).data ||
        hasSubstr "rollback".data (pyLower (e.2.2.title.getD "")).data) ||
       ((e.2.2.labels.map (fun l => pyLower (l.getD ""))).contains "bug" ||
        (e.2.2.labels.map (fun l => pyLower (l.getD ""))).contains "incident" ||
        (e.2.2.labels.map (fun l => pyLower (l.getD ""))).contains "revert" ||
        (e.2.2.labels.map (fun l => pyLower (l.getD ""))).contains "rollback"))) = failOf := by
    funext e
    simp [failOf, is_failure]
  have hlen : 0 < (dayEvents fromiso prs day).length := List.length_pos.mpr hne
  rw [hrec, hpred]
  simp only [finalizeDay, dayAccOf]
  rw [if_neg (Nat.pos_iff_ne_zero.mp hlen)]
  constructor <;> trivial

/-- A concrete instantiation of the ISO-8601 parsing oracle, defined on the
timestamps used in the concrete batches below. Each string (after the
`"Z" → "+00:00"` replacement) is mapped to its actual Gregorian-calendar
value: 2024-01-01 is day 19723 since the Unix epoch (1704067200 s), so
2024-01-01T00:00:00Z is minute 28401120; an hour is 60 minutes. Any other
string is unparseable. -/
def tableIso : String → Option DT := fun s =>
  if s = "2024-01-01T00:00:00+00:00" then some ⟨19723, 28401120⟩
  else if s = "2024-01-02T00:00:00+00:00" then some ⟨19724, 28402560⟩
  else if s = "2024-01-01T10:00:00+00:00" then some ⟨19723, 28401720⟩
  else if s = "2024-01-02T10:00:00+00:00" then some ⟨19724, 28403160⟩
  else if s = "2024-01-01T12:00:00+00:00" then some ⟨19723, 28401840⟩
  else if s = "2024-01-02T12:00:00+00:00" then some ⟨19724, 28403280⟩
  else none

/-- The first record of the repository's own test batch (test_dora.py). -/
def prA : RawPR :=
  { created_at := some "2024-01-01T10:00:00Z", merged_at := some "2024-01-02T10:00:00Z",
    title := some "Feature A", labels := [], user_login := some "alice" }

/-- The second record of the repository's own test batch (test_dora.py). -/
def prB : RawPR :=
  { created_at := some "2024-01-01T12:00:00Z", merged_at := some "2024-01-02T12:00:00Z",
    title := some "Revert bad change", labels := [some "bug"], user_login := some "bob" }

/-- A record whose `merged_at` does not parse. -/
def prBad : RawPR :=
  { created_at := some "2024-01-01T10:00:00Z", merged_at := some "not a timestamp",
    title := some "Oops", labels := [], user_login := some "carol" }

/-- A failure-titled record merged *before* it was created (both
timestamps parse): created 2024-01-02T00:00:00Z, merged
2024-01-01T00:00:00Z. -/
def prCex : RawPR :=
  { created_at := some "2024-01-02T00:00:00Z", merged_at := some "2024-01-01T00:00:00Z",
    title := some "revert flaky deploy", labels := [], user_login := some "dave" }

theorem prA_merged : parse_datetime tableIso prA.merged_at = some ⟨19724, 28403160⟩ := by decide

theorem prA_created : parse_datetime tableIso prA.created_at = some ⟨19723, 28401720⟩ := by
  decide

theorem prB_merged : parse_datetime tableIso prB.merged_at = some ⟨19724, 28403280⟩ := by decide

theorem prB_created : parse_datetime tableIso prB.created_at = some ⟨19723, 28401840⟩ := by
  decide

theorem prBad_merged : parse_datetime tableIso prBad.merged_at = none := by decide

theorem prCex_merged : parse_datetime tableIso prCex.merged_at = some ⟨19723, 28401120⟩ := by
  decide

theorem prCex_created : parse_datetime tableIso prCex.created_at = some ⟨19724, 28402560⟩ := by
  decide

theorem prA_fail : is_failure prA = false := by decide

theorem prB_fail : is_failure prB = true := by decide

theorem prCex_fail : is_failure prCex = true := by decide

/-- Evaluation of the aggregator on the repository's own test batch:
deployment frequency 2, average lead 1440 minutes, failure rate 1/2,
MTTR 1440 minutes, on 2024-01-02 (day 19724). -/
theorem dora_testbatch_eval : compute_dora_from_prs tableIso [prA, prB] =
    [(19724, { deployment_frequency := 2, avg_lead_time_minutes := 1440,
               change_failure_rate := 1/2, mttr_minutes := 1440 })] := by
  norm_num [compute_dora_from_prs, doraStep, prA_merged, prA_created, prB_merged, prB_created,
    prA_fail, prB_fail, updateAssoc, addEvent, DayAcc.init, finalizeDay, List.cons_ne_nil]

/-- C2 counterexample: on a batch whose single event was merged before it
was created (both timestamps parseable), the day's `avg_lead_time_minutes`
and `mttr_minutes` are -1440 < 0, refuting the unconditional nonnegativity
stated by the claim. -/
theorem metrics_invariants_cex :
    compute_dora_from_prs tableIso [prCex] =
        [(19723, { deployment_frequency := 1, avg_lead_time_minutes := -1440,
                   change_failure_rate := 1, mttr_minutes := -1440 })] ∧
      ((-1440 : ℚ) < 0) := by
  constructor
  · norm_num [compute_dora_from_prs, doraStep, prCex_merged, prCex_created, prCex_fail,
      updateAssoc, addEvent, DayAcc.init, finalizeDay, List.cons_ne_nil]
  · norm_num

/-- C2 witness: the amended invariants evaluated on the repository's test
batch. -/
theorem metrics_invariants_witness :
    ((19724 : ℤ), ({ deployment_frequency := 2, avg_lead_time_minutes := 1440,
                     change_failure_rate := 1/2, mttr_minutes := 1440 } : DayMetrics)) ∈
        compute_dora_from_prs tableIso [prA, prB] ∧
      ((0 ≤ (1/2 : ℚ) ∧ (1/2 : ℚ) ≤ 1) ∧ (0 ≤ (1440 : ℚ) ∧ 0 ≤ (1440 : ℚ))) := by
  have hmem : ((19724 : ℤ), ({ deployment_frequency := 2, avg_lead_time_minutes := 1440,
                               change_failure_rate := 1/2, mttr_minutes := 1440 } : DayMetrics)) ∈
      compute_dora_from_prs tableIso [prA, prB] := by
    rw [dora_testbatch_eval]
    exact List.mem_singleton.mpr rfl
  have hmono : ∀ pr ∈ [prA, prB], ∀ m c, parse_datetime tableIso pr.merged_at = some m →
      parse_datetime tableIso pr.created_at = some c → c.minutes ≤ m.minutes := by
    intro pr hpr m c hm hc
    rcases List.mem_cons.mp hpr with h1 | h1
    · subst h1
      rw [prA_merged] at hm
      rw [prA_created] at hc
      rw [← Option.some.inj hm, ← Option.some.inj hc]
      norm_num
    · rw [List.mem_singleton.mp h1] at hm hc
      rw [prB_merged] at hm
      rw [prB_created] at hc
      rw [← Option.some.inj hm, ← Option.some.inj hc]
      norm_num
  have h := metrics_invariants tableIso [prA, prB] 19724 _ hmem
  exact ⟨hmem, h.1, h.2 hmono⟩

/-- C7 witness: the failure-rate and MTTR formulas instantiated on the
repository's test batch. -/
theorem cfr_and_mttr_formulas_witness :
    ((19724 : ℤ), ({ deployment_frequency := 2, avg_lead_time_minutes := 1440,
                     change_failure_rate := 1/2, mttr_minutes := 1440 } : DayMetrics)) ∈
        compute_dora_from_prs tableIso [prA, prB] ∧
      (({ deployment_frequency := 2, avg_lead_time_minutes := 1440,
          change_failure_rate := 1/2, mttr_minutes := 1440 } : DayMetrics).change_failure_rate =
          (((dayEvents tableIso [prA, prB] 19724).filter (fun e =>
              ((hasSubstr "revert".data (pyLower (e.2.2.title.getD "")).data ||
                hasSubstr "rollback".data (pyLower (e.2.2.title.getD "")).data) ||
               ((e.2.2.labels.map (fun l => pyLower (l.getD ""))).contains "bug" ||
                (e.2.2.labels.map (fun l => pyLower (l.getD ""))).contains "incident" ||
                (e.2.2.labels.map (fun l => pyLower (l.getD ""))).contains "revert" ||
                (e.2.2.labels.map (fun l =>
                  pyLower (l.getD ""))).contains "rollback")))).length : ℚ) /
            ((dayEvents tableIso [prA, prB] 19724).length : ℚ) ∧
        ({ deployment_frequency := 2, avg_lead_time_minutes := 1440,
           change_failure_rate := 1/2, mttr_minutes := 1440 } : DayMetrics).mttr_minutes =
          (if ((dayEvents tableIso [prA, prB] 19724).filter failOf).length = 0 then 0 else
            (((dayEvents tableIso [prA, prB] 19724).filter failOf).map leadOf).sum /
              (((dayEvents tableIso [prA, prB] 19724).filter failOf).length : ℚ))) := by
  have hmem : ((19724 : ℤ), ({ deployment_frequency := 2, avg_lead_time_minutes := 1440,
                               change_failure_rate := 1/2,
                               mttr_minutes := 1440 } : DayMetrics)) ∈
      compute_dora_from_prs tableIso [prA, prB] := by
    rw [dora_testbatch_eval]
    exact List.mem_singleton.mpr rfl
  exact ⟨hmem, cfr_and_mttr_formulas tableIso [prA, prB] 19724 _ hmem⟩

/-- C8 witness: a record with unparseable `merged_at`, inserted in the
middle of the test batch, leaves the result unchanged. -/
theorem unparseable_records_skipped_witness :
    (parse_datetime tableIso prBad.merged_at = none ∨
        parse_datetime tableIso prBad.created_at = none) ∧
      (compute_dora_from_prs tableIso ([prA] ++ prBad :: [prB]) =
          compute_dora_from_prs tableIso ([prA] ++ [prB]) ∧
        compute_dora_from_prs tableIso [] = []) :=
  ⟨Or.inl prBad_merged,
    unparseable_records_skipped tableIso [prA] [prB] prBad (Or.inl prBad_merged)⟩

/-! ## Performance classifier (`business.get_dora_performance_level`) -/

/-- The four performance tiers, in the strings "Low"/"Medium"/"High"/
"Elite" of the source. -/
inductive Level where
  | low
  | medium
  | high
  | elite
deriving DecidableEq, Repr

/-- `level_order.index(l)` for `level_order = ["Low", "Medium", "High",
"Elite"]`. -/
def levelOrdinal : Level → ℕ
  | .low => 0
  | .medium => 1
  | .high => 2
  | .elite => 3

/-- The list `level_order = ["Low", "Medium", "High", "Elite"]`. -/
def level_order : List Level :=
  [Level.low, Level.medium, Level.high, Level.elite]

/-- Python `round` on an exactly-represented value: round half to even. -/
def pyRound (q : ℚ) : ℤ :=
  if Int.fract q < 1/2 then ⌊q⌋
  else if 1/2 < Int.fract q then ⌊q⌋ + 1
  else if ⌊q⌋ % 2 = 0 then ⌊q⌋ else ⌊q⌋ + 1

/-- A DORA metrics snapshot supplied as a `dict` of floats; absent keys
are `none`. -/
structure DoraSnapshot where
  deployment_frequency : Option ℚ
  avg_lead_time_minutes : Option ℚ
  change_failure_rate : Option ℚ
  mttr_minutes : Option ℚ
deriving DecidableEq, Repr

/-- `metrics.get(key, float("inf")) <= t` for a finite threshold `t`: the
`inf` default of an absent key fails every comparison. -/
def leD (v : Option ℚ) (t : ℚ) : Bool :=
  match v with
  | none => false
  | some x => decide (x ≤ t)

/-- The classifier result: one tier per metric plus the overall tier
(the `levels` dict of the source). -/
structure PerfLevels where
  deployment_frequency : Level
  lead_time : Level
  change_failure_rate : Level
  mttr : Level
  overall : Level
deriving DecidableEq, Repr

/-- `business.get_dora_performance_level` (business.py lines 176-230).
The overall tier indexes `level_order` with `round(avg_level)`; the index
is always in range (see `pyRound_mean_ordinals_range`), so the embedding
uses `List.getD` with an arbitrary default. -/
def get_dora_performance_level (m : DoraSnapshot) : PerfLevels :=
  let df := m.deployment_frequency.getD 0
  let dfL := if df ≥ 1 then Level.elite
    else if df ≥ 0.14 then Level.high
    else if df ≥ 0.033 then Level.medium
    else Level.low
  let ltL := if leD m.avg_lead_time_minutes 60 then Level.elite
    else if leD m.avg_lead_time_minutes 1440 then Level.high
    else if leD m.avg_lead_time_minutes 10080 then Level.medium
    else Level.low
  let cfr := m.change_failure_rate.getD 1
  let cfrL := if cfr ≤ 0.15 then Level.elite
    else if cfr ≤ 0.30 then Level.high
    else if cfr ≤ 0.45 then Level.medium
    else Level.low
  let mtL := if leD m.mttr_minutes 60 then Level.elite
    else if leD m.mttr_minutes 1440 then Level.high
    else if leD m.mttr_minutes 10080 then Level.medium
    else Level.low
  let avg : ℚ :=
    ((levelOrdinal dfL + levelOrdinal ltL + levelOrdinal cfrL + levelOrdinal mtL : ℕ) : ℚ) / 4
  { deployment_frequency := dfL
    lead_time := ltL
    change_failure_rate := cfrL
    mttr := mtL
    overall := level_order.getD (pyRound avg).toNat Level.low }

theorem levelOrdinal_le_three (l : Level) : levelOrdinal l ≤ 3 := by
  cases l <;> simp [levelOrdinal]

/-- Indexing `level_order` at the rounded mean of four ordinals is in
range and inverts `levelOrdinal`. -/
theorem pyRound_mean_ordinals_range (n : ℕ) (h : n ≤ 12) :
    (levelOrdinal (level_order.getD (pyRound ((n : ℚ) / 4)).toNat Level.low) : ℤ) =
      pyRound ((n : ℚ) / 4) := by
  interval_cases n <;> norm_num [pyRound, Int.fract, level_order, levelOrdinal] <;> decide

/-- C3. The classifier follows the fixed threshold table on each of the
four metrics (absent values behave as the `dict.get` defaults: 0 for
deployment frequency, 1 for failure rate, +inf for the two durations), and
the overall tier is the tier whose ordinal is the (half-to-even) rounded
mean of the four per-metric ordinals. -/
theorem performance_level_spec (m : DoraSnapshot) :
    ((get_dora_performance_level m).deployment_frequency =
        (if m.deployment_frequency.getD 0 ≥ 1 then Level.elite
         else if m.deployment_frequency.getD 0 ≥ 0.14 then Level.high
         else if m.deployment_frequency.getD 0 ≥ 0.033 then Level.medium
         else Level.low) ∧
      (get_dora_performance_level m).lead_time =
        (if leD m.avg_lead_time_minutes 60 then Level.elite
         else if leD m.avg_lead_time_minutes 1440 then Level.high
         else if leD m.avg_lead_time_minutes 10080 then Level.medium
         else Level.low) ∧
      (get_dora_performance_level m).change_failure_rate =
        (if m.change_failure_rate.getD 1 ≤ 0.15 then Level.elite
         else if m.change_failure_rate.getD 1 ≤ 0.30 then Level.high
         else if m.change_failure_rate.getD 1 ≤ 0.45 then Level.medium
         else Level.low) ∧
      (get_dora_performance_level m).mttr =
        (if leD m.mttr_minutes 60 then Level.elite
         else if leD m.mttr_minutes 1440 then Level.high
         else if leD m.mttr_minutes 10080 then Level.medium
         else Level.low)) ∧
    (levelOrdinal (get_dora_performance_level m).overall : ℤ) =
      pyRound (((levelOrdinal (get_dora_performance_level m).deployment_frequency +
          levelOrdinal (get_dora_performance_level m).lead_time +
          levelOrdinal (get_dora_performance_level m).change_failure_rate +
          levelOrdinal (get_dora_performance_level m).mttr : ℕ) : ℚ) / 4) := by
  refine ⟨⟨rfl, rfl, rfl, rfl⟩, ?_⟩
  have h1 := levelOrdinal_le_three (get_dora_performance_level m).deployment_frequency
  have h2 := levelOrdinal_le_three (get_dora_performance_level m).lead_time
  have h3 := levelOrdinal_le_three (get_dora_performance_level m).change_failure_rate
  have h4 := levelOrdinal_le_three (get_dora_performance_level m).mttr
  exact pyRound_mean_ordinals_range
    (levelOrdinal (get_dora_performance_level m).deployment_frequency +
      levelOrdinal (get_dora_performance_level m).lead_time +
      levelOrdinal (get_dora_performance_level m).change_failure_rate +
      levelOrdinal (get_dora_performance_level m).mttr)
    (by omega)

/-! ## Business impact estimator (`business.calculate_business_impact`) -/

/-- The business-context configuration `dict`; recognized keys only,
absent keys are `none` and fall back to the documented defaults. -/
structure BusinessContext where
  annual_revenue : Option ℚ
  avg_incident_cost : Option ℚ
  engineer_hourly_rate : Option ℚ
  team_size : Option ℚ
deriving DecidableEq, Repr

/-- The empty context `{}` (produced by `business_context or {}`). -/
def emptyContext : BusinessContext :=
  { annual_revenue := none, avg_incident_cost := none, engineer_hourly_rate := none,
    team_size := none }

/-- One entry of the `impacts` list. The f-string `insight` sentence is
presentation-only text and is not modelled. -/
structure ImpactRec where
  metric : String
  before : ℚ
  after : ℚ
  improvement_pct : ℚ
  estimated_value : ℚ
deriving DecidableEq, Repr

/-- The Deployment Frequency branch (business.py lines 96-111): taken
exactly when `df_before > 0` and `df_after > df_before`. -/
def dfImpactRec (dora_before dora_after : DoraSnapshot) (bc : Option BusinessContext) :
    Option ImpactRec :=
  let context := bc.getD emptyContext
  let annual_revenue := context.annual_revenue.getD 1000000
  let df_before := dora_before.deployment_frequency.getD 0
  let df_after := dora_after.deployment_frequency.getD 0
  if df_before > 0 ∧ df_after > df_before then
    let df_improvement := (df_after - df_before) / df_before * 100
    some { metric := "Deployment Frequency", before := df_before, after := df_after,
           improvement_pct := df_improvement,
           estimated_value := annual_revenue * (df_improvement / 10) * 0.005 }
  else none

/-- The Lead Time branch (business.py lines 113-129): taken exactly when
`lt_before > 0` and `lt_after < lt_before`. -/
def ltImpactRec (dora_before dora_after : DoraSnapshot) (bc : Option BusinessContext) :
    Option ImpactRec :=
  let context := bc.getD emptyContext
  let engineer_hourly_rate := context.engineer_hourly_rate.getD 75
  let lt_before := dora_before.avg_lead_time_minutes.getD 0
  let lt_after := dora_after.avg_lead_time_minutes.getD 0
  let df_after := dora_after.deployment_frequency.getD 0
  if lt_before > 0 ∧ lt_after < lt_before then
    let lt_improvement := (lt_before - lt_after) / lt_before * 100
    let time_saved_hours := (lt_before - lt_after) / 60 * df_after * 52
    some { metric := "Lead Time", before := lt_before, after := lt_after,
           improvement_pct := lt_improvement,
           estimated_value := time_saved_hours * engineer_hourly_rate }
  else none

/-- The Change Failure Rate branch (business.py lines 131-147): taken
exactly when `cfr_before > 0` and `cfr_after < cfr_before`. -/
def cfrImpactRec (dora_before dora_after : DoraSnapshot) (bc : Option BusinessContext) :
    Option ImpactRec :=
  let context := bc.getD emptyContext
  let avg_incident_cost := context.avg_incident_cost.getD 5000
  let cfr_before := dora_before.change_failure_rate.getD 0
  let cfr_after := dora_after.change_failure_rate.getD 0
  let df_after := dora_after.deployment_frequency.getD 0
  if cfr_before > 0 ∧ cfr_after < cfr_before then
    let cfr_improvement := (cfr_before - cfr_after) / cfr_before * 100
    let incidents_prevented := (cfr_before - cfr_after) * df_after * 52
    some { metric := "Change Failure Rate", before := cfr_before, after := cfr_after,
           improvement_pct := cfr_improvement,
           estimated_value := incidents_prevented * avg_incident_cost }
  else none

/-- The MTTR branch (business.py lines 149-166): taken exactly when
`mttr_before > 0` and `mttr_after < mttr_before`. -/
def mttrImpactRec (dora_before dora_after : DoraSnapshot) (bc : Option BusinessContext) :
    Option ImpactRec :=
  let context := bc.getD emptyContext
  let annual_revenue := context.annual_revenue.getD 1000000
  let mttr_before := dora_before.mttr_minutes.getD 0
  let mttr_after := dora_after.mttr_minutes.getD 0
  let cfr_after := dora_after.change_failure_rate.getD 0
  let df_after := dora_after.deployment_frequency.getD 0
  if mttr_before > 0 ∧ mttr_after < mttr_before then
    let mttr_improvement := (mttr_before - mttr_after) / mttr_before * 100
    let downtime_saved_hours := (mttr_before - mttr_after) / 60 * cfr_after * df_after * 52
    let downtime_cost_per_hour := annual_revenue / (365 * 24)
    some { metric := "Mean Time to Recovery", before := mttr_before, after := mttr_after,
           improvement_pct := mttr_improvement,
           estimated_value := downtime_saved_hours * downtime_cost_per_hour }
  else none

/-- The result of `calculate_business_impact`: the constant
`roi_summary`/`methodology` presentation strings are not modelled. -/
structure ImpactResult where
  impacts : List ImpactRec
  total_annual_savings : ℚ
deriving DecidableEq, Repr

/-- `business.calculate_business_impact`: the four branches run in order,
each appending its record to `impacts` and adding its estimated value to
the running total. -/
def calculate_business_impact (dora_before dora_after : DoraSnapshot)
    (business_context : Option BusinessContext) : ImpactResult :=
  { impacts := (dfImpactRec dora_before dora_after business_context).toList ++
      (ltImpactRec dora_before dora_after business_context).toList ++
      (cfrImpactRec dora_before dora_after business_context).toList ++
      (mttrImpactRec dora_before dora_after business_context).toList
    total_annual_savings :=
      ((dfImpactRec dora_before dora_after business_context).map
        ImpactRec.estimated_value).getD 0 +
      ((ltImpactRec dora_before dora_after business_context).map
        ImpactRec.estimated_value).getD 0 +
      ((cfrImpactRec dora_before dora_after business_context).map
        ImpactRec.estimated_value).getD 0 +
      ((mttrImpactRec dora_before dora_after business_context).map
        ImpactRec.estimated_value).getD 0 }

theorem dfImpactRec_metric (b a : DoraSnapshot) (bc : Option BusinessContext) (rec : ImpactRec)
    (h : rec ∈ (dfImpactRec b a bc).toList) : rec.metric = "Deployment Frequency" := by
  by_cases hc : b.deployment_frequency.getD 0 > 0 ∧
      a.deployment_frequency.getD 0 > b.deployment_frequency.getD 0
  · simp [dfImpactRec, hc] at h
    rw [h]
  · simp [dfImpactRec, hc] at h

theorem ltImpactRec_metric (b a : DoraSnapshot) (bc : Option BusinessContext) (rec : ImpactRec)
    (h : rec ∈ (ltImpactRec b a bc).toList) : rec.metric = "Lead Time" := by
  by_cases hc : b.avg_lead_time_minutes.getD 0 > 0 ∧
      a.avg_lead_time_minutes.getD 0 < b.avg_lead_time_minutes.getD 0
  · simp [ltImpactRec, hc] at h
    rw [h]
  · simp [ltImpactRec, hc] at h

theorem cfrImpactRec_metric (b a : DoraSnapshot) (bc : Option BusinessContext) (rec : ImpactRec)
    (h : rec ∈ (cfrImpactRec b a bc).toList) : rec.metric = "Change Failure Rate" := by
  by_cases hc : b.change_failure_rate.getD 0 > 0 ∧
      a.change_failure_rate.getD 0 < b.change_failure_rate.getD 0
  · simp [cfrImpactRec, hc] at h
    rw [h]
  · simp [cfrImpactRec, hc] at h

theorem mttrImpactRec_metric (b a : DoraSnapshot) (bc : Option BusinessContext) (rec : ImpactRec)
    (h : rec ∈ (mttrImpactRec b a bc).toList) : rec.metric = "Mean Time to Recovery" := by
  by_cases hc : b.mttr_minutes.getD 0 > 0 ∧ a.mttr_minutes.getD 0 < b.mttr_minutes.getD 0
  · simp [mttrImpactRec, hc] at h
    rw [h]
  · simp [mttrImpactRec, hc] at h

theorem dfImpactRec_none (b a : DoraSnapshot) (bc : Option BusinessContext)
    (h : ¬ a.deployment_frequency.getD 0 > b.deployment_frequency.getD 0) :
    dfImpactRec b a bc = none := by
  have hc : ¬ (b.deployment_frequency.getD 0 > 0 ∧
      a.deployment_frequency.getD 0 > b.deployment_frequency.getD 0) := fun hh => h hh.2
  simp [dfImpactRec, hc]

theorem ltImpactRec_none (b a : DoraSnapshot) (bc : Option BusinessContext)
    (h : ¬ a.avg_lead_time_minutes.getD 0 < b.avg_lead_time_minutes.getD 0) :
    ltImpactRec b a bc = none := by
  have hc : ¬ (b.avg_lead_time_minutes.getD 0 > 0 ∧
      a.avg_lead_time_minutes.getD 0 < b.avg_lead_time_minutes.getD 0) := fun hh => h hh.2
  simp [ltImpactRec, hc]

theorem cfrImpactRec_none (b a : DoraSnapshot) (bc : Option BusinessContext)
    (h : ¬ a.change_failure_rate.getD 0 < b.change_failure_rate.getD 0) :
    cfrImpactRec b a bc = none := by
  have hc : ¬ (b.change_failure_rate.getD 0 > 0 ∧
      a.change_failure_rate.getD 0 < b.change_failure_rate.getD 0) := fun hh => h hh.2
  simp [cfrImpactRec, hc]

theorem mttrImpactRec_none (b a : DoraSnapshot) (bc : Option BusinessContext)
    (h : ¬ a.mttr_minutes.getD 0 < b.mttr_minutes.getD 0) :
    mttrImpactRec b a bc = none := by
  have hc : ¬ (b.mttr_minutes.getD 0 > 0 ∧ a.mttr_minutes.getD 0 < b.mttr_minutes.getD 0) :=
    fun hh => h hh.2
  simp [mttrImpactRec, hc]

theorem total_eq_sum_impacts (b a : DoraSnapshot) (bc : Option BusinessContext) :
    (calculate_business_impact b a bc).total_annual_savings =
      ((calculate_business_impact b a bc).impacts.map ImpactRec.estimated_value).sum := by
  rcases h1 : dfImpactRec b a bc with _ | r1 <;>
    rcases h2 : ltImpactRec b a bc with _ | r2 <;>
      rcases h3 : cfrImpactRec b a bc with _ | r3 <;>
        rcases h4 : mttrImpactRec b a bc with _ | r4 <;>
          simp [calculate_business_impact, h1, h2, h3, h4] <;> ring

theorem mem_impacts_iff (b a : DoraSnapshot) (bc : Option BusinessContext) (rec : ImpactRec) :
    rec ∈ (calculate_business_impact b a bc).impacts ↔
      (dfImpactRec b a bc = some rec ∨ ltImpactRec b a bc = some rec ∨
        cfrImpactRec b a bc = some rec ∨ mttrImpactRec b a bc = some rec) := by
  simp [calculate_business_impact, Option.mem_toList, Option.mem_def, or_assoc]

/-- C4. A metric that did not improve produces no entry in `impacts` and
contributes nothing to the total (the total is exactly the sum of the
emitted entries, so an omitted metric adds 0, never a negative amount);
in particular if the two snapshots agree on every metric, the `impacts`
list is empty and the total is 0. -/
theorem business_impact_no_regression (b a : DoraSnapshot) (bc : Option BusinessContext) :
    (¬ a.deployment_frequency.getD 0 > b.deployment_frequency.getD 0 →
      ∀ rec ∈ (calculate_business_impact b a bc).impacts,
        rec.metric ≠ "Deployment Frequency") ∧
    (¬ a.avg_lead_time_minutes.getD 0 < b.avg_lead_time_minutes.getD 0 →
      ∀ rec ∈ (calculate_business_impact b a bc).impacts, rec.metric ≠ "Lead Time") ∧
    (¬ a.change_failure_rate.getD 0 < b.change_failure_rate.getD 0 →
      ∀ rec ∈ (calculate_business_impact b a bc).impacts,
        rec.metric ≠ "Change Failure Rate") ∧
    (¬ a.mttr_minutes.getD 0 < b.mttr_minutes.getD 0 →
      ∀ rec ∈ (calculate_business_impact b a bc).impacts,
        rec.metric ≠ "Mean Time to Recovery") ∧
    (calculate_business_impact b a bc).total_annual_savings =
      ((calculate_business_impact b a bc).impacts.map ImpactRec.estimated_value).sum ∧
    (a = b → (calculate_business_impact b a bc).impacts = [] ∧
      (calculate_business_impact b a bc).total_annual_savings = 0) := by
  refine ⟨?_, ?_, ?_, ?_, total_eq_sum_impacts b a bc, ?_⟩
  · intro h rec hrec
    rcases (mem_impacts_iff b a bc rec).mp hrec with h1 | h1 | h1 | h1
    · rw [dfImpactRec_none b a bc h] at h1
      exact absurd h1 (by simp)
    · rw [ltImpactRec_metric b a bc rec (by simp [h1])]
      decide
    · rw [cfrImpactRec_metric b a bc rec (by simp [h1])]
      decide
    · rw [mttrImpactRec_metric b a bc rec (by simp [h1])]
      decide
  · intro h rec hrec
    rcases (mem_impacts_iff b a bc rec).mp hrec with h1 | h1 | h1 | h1
    · rw [dfImpactRec_metric b a bc rec (by simp [h1])]
      decide
    · rw [ltImpactRec_none b a bc h] at h1
      exact absurd h1 (by simp)
    · rw [cfrImpactRec_metric b a bc rec (by simp [h1])]
      decide
    · rw [mttrImpactRec_metric b a bc rec (by simp [h1])]
      decide
  · intro h rec hrec
    rcases (mem_impacts_iff b a bc rec).mp hrec with h1 | h1 | h1 | h1
    · rw [dfImpactRec_metric b a bc rec (by simp [h1])]
      decide
    · rw [ltImpactRec_metric b a bc rec (by simp [h1])]
      decide
    · rw [cfrImpactRec_none b a bc h] at h1
      exact absurd h1 (by simp)
    · rw [mttrImpactRec_metric b a bc rec (by simp [h1])]
      decide
  · intro h rec hrec
    rcases (mem_impacts_iff b a bc rec).mp hrec with h1 | h1 | h1 | h1
    · rw [dfImpactRec_metric b a bc rec (by simp [h1])]
      decide
    · rw [ltImpactRec_metric b a bc rec (by simp [h1])]
      decide
    · rw [cfrImpactRec_metric b a bc rec (by simp [h1])]
      decide
    · rw [mttrImpactRec_none b a bc h] at h1
      exact absurd h1 (by simp)
  · intro hab
    subst hab
    have h1 := dfImpactRec_none a a bc (lt_irrefl _)
    have h2 := ltImpactRec_none a a bc (lt_irrefl _)
    have h3 := cfrImpactRec_none a a bc (lt_irrefl _)
    have h4 := mttrImpactRec_none a a bc (lt_irrefl _)
    simp [calculate_business_impact, h1, h2, h3, h4]

/-- C10. A metric whose "before" value is 0 (or absent, defaulting to 0)
emits no impact record and adds nothing to the total — even when the
"after" value is strictly better — because each branch also requires a
strictly positive "before" value. -/
theorem business_impact_zero_before (b a : DoraSnapshot) (bc : Option BusinessContext) :
    (b.deployment_frequency.getD 0 = 0 →
      (∀ rec ∈ (calculate_business_impact b a bc).impacts,
        rec.metric ≠ "Deployment Frequency") ∧
      (calculate_business_impact b a bc).total_annual_savings =
        ((ltImpactRec b a bc).map ImpactRec.estimated_value).getD 0 +
        ((cfrImpactRec b a bc).map ImpactRec.estimated_value).getD 0 +
        ((mttrImpactRec b a bc).map ImpactRec.estimated_value).getD 0) ∧
    (b.avg_lead_time_minutes.getD 0 = 0 →
      (∀ rec ∈ (calculate_business_impact b a bc).impacts, rec.metric ≠ "Lead Time") ∧
      (calculate_business_impact b a bc).total_annual_savings =
        ((dfImpactRec b a bc).map ImpactRec.estimated_value).getD 0 +
        ((cfrImpactRec b a bc).map ImpactRec.estimated_value).getD 0 +
        ((mttrImpactRec b a bc).map ImpactRec.estimated_value).getD 0) ∧
    (b.change_failure_rate.getD 0 = 0 →
      (∀ rec ∈ (calculate_business_impact b a bc).impacts,
        rec.metric ≠ "Change Failure Rate") ∧
      (calculate_business_impact b a bc).total_annual_savings =
        ((dfImpactRec b a bc).map ImpactRec.estimated_value).getD 0 +
        ((ltImpactRec b a bc).map ImpactRec.estimated_value).getD 0 +
        ((mttrImpactRec b a bc).map ImpactRec.estimated_value).getD 0) ∧
    (b.mttr_minutes.getD 0 = 0 →
      (∀ rec ∈ (calculate_business_impact b a bc).impacts,
        rec.metric ≠ "Mean Time to Recovery") ∧
      (calculate_business_impact b a bc).total_annual_savings =
        ((dfImpactRec b a bc).map ImpactRec.estimated_value).getD 0 +
        ((ltImpactRec b a bc).map ImpactRec.estimated_value).getD 0 +
        ((cfrImpactRec b a bc).map ImpactRec.estimated_value).getD 0) := by
  refine ⟨?_, ?_, ?_, ?_⟩
  · intro h
    have hn : dfImpactRec b a bc = none := by
      have hc : ¬ (b.deployment_frequency.getD 0 > 0 ∧
          a.deployment_frequency.getD 0 > b.deployment_frequency.getD 0) := by
        rw [h]
        exact fun hh => lt_irrefl 0 hh.1
      simp [dfImpactRec, hc]
    refine ⟨?_, ?_⟩
    · intro rec hrec
      rcases (mem_impacts_iff b a bc rec).mp hrec with h1 | h1 | h1 | h1
      · rw [hn] at h1
        exact absurd h1 (by simp)
      · rw [ltImpactRec_metric b a bc rec (by simp [h1])]
        decide
      · rw [cfrImpactRec_metric b a bc rec (by simp [h1])]
        decide
      · rw [mttrImpactRec_metric b a bc rec (by simp [h1])]
        decide
    · simp [calculate_business_impact, hn]
  · intro h
    have hn : ltImpactRec b a bc = none := by
      have hc : ¬ (b.avg_lead_time_minutes.getD 0 > 0 ∧
          a.avg_lead_time_minutes.getD 0 < b.avg_lead_time_minutes.getD 0) := by
        rw [h]
        exact fun hh => lt_irrefl 0 hh.1
      simp [ltImpactRec, hc]
    refine ⟨?_, ?_⟩
    · intro rec hrec
      rcases (mem_impacts_iff b a bc rec).mp hrec with h1 | h1 | h1 | h1
      · rw [dfImpactRec_metric b a bc rec (by simp [h1])]
        decide
      · rw [hn] at h1
        exact absurd h1 (by simp)
      · rw [cfrImpactRec_metric b a bc rec (by simp [h1])]
        decide
      · rw [mttrImpactRec_metric b a bc rec (by simp [h1])]
        decide
    · simp [calculate_business_impact, hn]
  · intro h
    have hn : cfrImpactRec b a bc = none := by
      have hc : ¬ (b.change_failure_rate.getD 0 > 0 ∧
          a.change_failure_rate.getD 0 < b.change_failure_rate.getD 0) := by
        rw [h]
        exact fun hh => lt_irrefl 0 hh.1
      simp [cfrImpactRec, hc]
    refine ⟨?_, ?_⟩
    · intro rec hrec
      rcases (mem_impacts_iff b a bc rec).mp hrec with h1 | h1 | h1 | h1
      · rw [dfImpactRec_metric b a bc rec (by simp [h1])]
        decide
      · rw [ltImpactRec_metric b a bc rec (by simp [h1])]
        decide
      · rw [hn] at h1
        exact absurd h1 (by simp)
      · rw [mttrImpactRec_metric b a bc rec (by simp [h1])]
        decide
    · simp [calculate_business_impact, hn]
  · intro h
    have hn : mttrImpactRec b a bc = none := by
      have hc : ¬ (b.mttr_minutes.getD 0 > 0 ∧
          a.mttr_minutes.getD 0 < b.mttr_minutes.getD 0) := by
        rw [h]
        exact fun hh => lt_irrefl 0 hh.1
      simp [mttrImpactRec, hc]
    refine ⟨?_, ?_⟩
    · intro rec hrec
      rcases (mem_impacts_iff b a bc rec).mp hrec with h1 | h1 | h1 | h1
      · rw [dfImpactRec_metric b a bc rec (by simp [h1])]
        decide
      · rw [ltImpactRec_metric b a bc rec (by simp [h1])]
        decide
      · rw [cfrImpactRec_metric b a bc rec (by simp [h1])]
        decide
      · rw [hn] at h1
        exact absurd h1 (by simp)
    · simp [calculate_business_impact, hn]

/-- A snapshot used as both "before" and "after" in the C4 witness. -/
def snapEq : DoraSnapshot :=
  { deployment_frequency := some 1, avg_lead_time_minutes := some 100,
    change_failure_rate := some (1/5), mttr_minutes := some 30 }

/-- A "before" snapshot whose metrics are all 0. -/
def snapZero : DoraSnapshot :=
  { deployment_frequency := some 0, avg_lead_time_minutes := some 0,
    change_failure_rate := some 0, mttr_minutes := some 0 }

/-- An "after" snapshot with a strictly better deployment frequency. -/
def snapUp : DoraSnapshot :=
  { deployment_frequency := some 5, avg_lead_time_minutes := some 0,
    change_failure_rate := some 0, mttr_minutes := some 0 }

/-- C4 witness: with identical before/after snapshots the impact list is
empty, the total is 0, and no deployment-frequency entry exists. -/
theorem business_impact_no_regression_witness :
    ((calculate_business_impact snapEq snapEq none).impacts = [] ∧
      (calculate_business_impact snapEq snapEq none).total_annual_savings = 0) ∧
    (∀ rec ∈ (calculate_business_impact snapEq snapEq none).impacts,
      rec.metric ≠ "Deployment Frequency") := by
  have h := business_impact_no_regression snapEq snapEq none
  exact ⟨h.2.2.2.2.2 rfl, h.1 (lt_irrefl _)⟩

/-- C10 witness: a "before" deployment frequency of 0 yields no
deployment-frequency record even though "after" is strictly larger, and
the total reduces to the other three contributions. -/
theorem business_impact_zero_before_witness :
    (∀ rec ∈ (calculate_business_impact snapZero snapUp none).impacts,
      rec.metric ≠ "Deployment Frequency") ∧
    (calculate_business_impact snapZero snapUp none).total_annual_savings =
      ((ltImpactRec snapZero snapUp none).map ImpactRec.estimated_value).getD 0 +
      ((cfrImpactRec snapZero snapUp none).map ImpactRec.estimated_value).getD 0 +
      ((mttrImpactRec snapZero snapUp none).map ImpactRec.estimated_value).getD 0 :=
  (business_impact_zero_before snapZero snapUp none).1 rfl

/-! ## Insight generator (`insights.generate_insight_summary`) -/

/-- Python `int()` truncation of a float toward zero. -/
def pyInt (q : ℚ) : ℤ :=
  if 0 ≤ q then ⌊q⌋ else ⌈q⌉

/-- Python `s.startswith(pre)`. -/
def pyStartsWith (s pre : String) : Bool :=
  pre.data.isPrefixOf s.data

/-- The author list of `generate_insight_summary` (insights.py line 23-24):
logins of the records whose raw `merged_at` string starts with
`str(target_day)`, keeping only truthy logins (present and nonempty).
`dayStr` abstracts Python `str` on dates. -/
def authorsOf (dayStr : ℤ → String) (prs : List RawPR) (target_day : ℤ) : List String :=
  ((prs.filter (fun pr => pyStartsWith (pr.merged_at.getD "") (dayStr target_day))).map
      (fun pr => pr.user_login)).filterMap
    (fun a => match a with
      | some s => if s = "" then none else some s
      | none => none)

/-- One `Counter` update: an existing key is incremented in place, a new
key is appended with count 1 (CPython `dict` insertion order). -/
def bumpCount : List (String × ℕ) → String → List (String × ℕ)
  | [], a => [(a, 1)]
  | (k, n) :: t, a => if k = a then (k, n + 1) :: t else (k, n) :: bumpCount t a

/-- `collections.Counter` of a list of strings. -/
def tally (l : List String) : List (String × ℕ) :=
  l.foldl bumpCount []

/-- `Counter.most_common(5)`: stable sort by count descending, first 5.
Each pair models a `{"author": ..., "pr_count": ...}` record. -/
def most_common5 (counts : List (String × ℕ)) : List (String × ℕ) :=
  (counts.mergeSort (fun x y => decide (y.2 ≤ x.2))).take 5

/-- `insights.generate_insight_summary` (insights.py lines 12-40),
returning the risk flags and the top-contributor list. The
natural-language `summary` string is presentation-only text built from
`dep_freq`, the average lead time and the authors of the returned
top-contributor list; it is not modelled. -/
def generate_insight_summary (dayStr : ℤ → String) (metrics_per_day : List (ℤ × DayMetrics))
    (prs : List RawPR) (target_day : ℤ) : List String × List (String × ℕ) :=
  let dep_freq : ℤ :=
    pyInt (((alook metrics_per_day target_day).map DayMetrics.deployment_frequency).getD 0)
  let author_counts := tally (authorsOf dayStr prs target_day)
  let top_contrib := most_common5 author_counts
  let risk_flags : List String :=
    (if dep_freq = 0 then ["no_deployments"] else []) ++
      (if top_contrib ≠ [] ∧
          ((top_contrib.headD ("", 0)).2 : ℚ) /
              ((max 1 ((author_counts.map Prod.snd).sum) : ℕ) : ℚ) ≥ 0.8
        then ["bus_factor"] else [])
  (risk_flags, top_contrib)

theorem alook_map {α β : Type} (g : α → β) (l : List (ℤ × α)) (d : ℤ) :
    alook (l.map (fun p => (p.1, g p.2))) d = (alook l d).map g := by
  induction l with
  | nil => simp [alook]
  | cons hd t ih =>
    obtain ⟨k, v⟩ := hd
    by_cases hk : k = d <;> simp [alook, hk, ih]

theorem pyInt_natCast (n : ℕ) : pyInt (n : ℚ) = n := by
  simp [pyInt, Nat.cast_nonneg]

theorem bumpCount_pos (l : List (String × ℕ)) (a : String)
    (h : ∀ p ∈ l, 1 ≤ p.2) : ∀ p ∈ bumpCount l a, 1 ≤ p.2 := by
  induction l with
  | nil =>
    intro p hp
    simp [bumpCount] at hp
    subst hp
    exact le_refl 1
  | cons hd t ih =>
    obtain ⟨k, n⟩ := hd
    intro p hp
    by_cases hk : k = a
    · simp [bumpCount, hk] at hp
      rcases hp with hp | hp
      · subst hp
        show 1 ≤ n + 1
        omega
      · exact h p (List.mem_cons_of_mem _ hp)
    · simp only [bumpCount, if_neg hk, List.mem_cons] at hp
      rcases hp with hp | hp
      · exact hp ▸ h (k, n) (List.mem_cons_self _ _)
      · exact ih (fun q hq => h q (List.mem_cons_of_mem _ hq)) p hp

theorem tally_pos (l : List String) : ∀ p ∈ tally l, 1 ≤ p.2 := by
  have hgen : ∀ (l : List String) (acc : List (String × ℕ)), (∀ p ∈ acc, 1 ≤ p.2) →
      ∀ p ∈ l.foldl bumpCount acc, 1 ≤ p.2 := by
    intro l
    induction l with
    | nil => intro acc h; simpa using h
    | cons a t ih =>
      intro acc h
      rw [List.foldl_cons]
      exact ih _ (bumpCount_pos acc a h)
  exact hgen l [] (by simp)

theorem le_foldr_max (x : ℕ) (l : List ℕ) (h : x ∈ l) : x ≤ l.foldr max 0 := by
  induction l with
  | nil => simp at h
  | cons a t ih =>
    rcases List.mem_cons.mp h with h1 | h1
    · subst h1
      exact le_max_left _ _
    · exact le_trans (ih h1) (le_max_right _ _)

theorem foldr_max_le (b : ℕ) (l : List ℕ) (h : ∀ x ∈ l, x ≤ b) : l.foldr max 0 ≤ b := by
  induction l with
  | nil => simp
  | cons a t ih =>
    simp only [List.foldr_cons]
    exact max_le (h a (List.mem_cons_self _ _)) (ih (fun x hx => h x (List.mem_cons_of_mem _ hx)))

theorem take5_headD {α : Type} (l : List α) (d : α) : (l.take 5).headD d = l.headD d := by
  cases l <;> rfl

theorem take5_ne_nil {α : Type} (l : List α) (h : l ≠ []) : l.take 5 ≠ [] := by
  cases l with
  | nil => exact absurd rfl h
  | cons a t => simp

theorem mergeSort_head_max (counts : List (String × ℕ)) (h : counts ≠ []) :
    (counts.mergeSort (fun x y => decide (y.2 ≤ x.2))).headD ("", 0) ∈ counts ∧
      ∀ p ∈ counts, p.2 ≤ ((counts.mergeSort (fun x y => decide (y.2 ≤ x.2))).headD ("", 0)).2 := by
  have hpw := @List.sorted_mergeSort (String × ℕ) (fun x y => decide (y.2 ≤ x.2))
    (by intro a b c hab hbc
        simp only [decide_eq_true_eq] at hab hbc ⊢
        omega)
    (by intro a b
        simp only [Bool.or_eq_true, decide_eq_true_eq]
        omega)
    counts
  rcases hs : counts.mergeSort (fun x y : String × ℕ => decide (y.2 ≤ x.2)) with _ | ⟨hd, tl⟩
  · exfalso
    apply h
    have hlen : counts.length = 0 := by
      rw [← @List.length_mergeSort (String × ℕ) (fun x y => decide (y.2 ≤ x.2)) counts, hs]
      rfl
    exact List.length_eq_zero.mp hlen
  · rw [hs] at hpw
    have hmem : ∀ p : String × ℕ, p ∈ counts ↔ p ∈ hd :: tl := by
      intro p
      rw [← hs]
      exact (List.mem_mergeSort (l := counts)).symm
    constructor
    · simp only [List.headD_cons]
      exact (hmem hd).mpr (List.mem_cons_self _ _)
    · intro p hp
      simp only [List.headD_cons]
      rcases List.mem_cons.mp ((hmem p).mp hp) with h1 | h1
      · rw [h1]
      · have := (List.pairwise_cons.mp hpw).1 p h1
        simpa using this

/-- C9. With the per-day metrics produced by the aggregator on the same
event list (as both call sites do), `generate_insight_summary` emits
`"no_deployments"` exactly when the target day's deployment frequency is
0 (a day absent from the mapping reads as 0), emits `"bus_factor"`
exactly when the author tally is nonempty and its single top contributor
accounts for at least 80% of the counted events, and the returned
top-contributor list has at most 5 entries in non-increasing count order.
The two flags are independent string tags: each presence is equivalent to
its own condition alone. -/
theorem insight_flags_spec (dayStr : ℤ → String) (fromiso : String → Option DT)
    (prs : List RawPR) (target_day : ℤ) :
    ("no_deployments" ∈
        (generate_insight_summary dayStr (compute_dora_from_prs fromiso prs) prs
          target_day).1 ↔
      ((alook (compute_dora_from_prs fromiso prs) target_day).map
        DayMetrics.deployment_frequency).getD 0 = 0) ∧
    ("bus_factor" ∈
        (generate_insight_summary dayStr (compute_dora_from_prs fromiso prs) prs
          target_day).1 ↔
      (tally (authorsOf dayStr prs target_day) ≠ [] ∧
        (0.8 : ℚ) * (((tally (authorsOf dayStr prs target_day)).map Prod.snd).sum : ℚ) ≤
          ((((tally (authorsOf dayStr prs target_day)).map Prod.snd).foldr max 0 : ℕ) : ℚ))) ∧
    (generate_insight_summary dayStr (compute_dora_from_prs fromiso prs) prs
        target_day).2.length ≤ 5 ∧
    List.Pairwise (fun x y : String × ℕ => y.2 ≤ x.2)
      (generate_insight_summary dayStr (compute_dora_from_prs fromiso prs) prs target_day).2 := by
  have hval : (((alook (compute_dora_from_prs fromiso prs) target_day).map
      DayMetrics.deployment_frequency).getD 0) =
      ((dayEvents fromiso prs target_day).length : ℚ) := by
    have hm : alook (compute_dora_from_prs fromiso prs) target_day =
        (alook (prs.foldl (doraStep fromiso) []) target_day).map finalizeDay := by
      simpa [compute_dora_from_prs] using
        alook_map finalizeDay (prs.foldl (doraStep fromiso) []) target_day
    rw [hm, alook_foldl_doraStep]
    by_cases he : dayEvents fromiso prs target_day = []
    · simp [he]
    · simp [if_neg he, finalizeDay, dayAccOf]
  have hiff : pyInt (((alook (compute_dora_from_prs fromiso prs) target_day).map
      DayMetrics.deployment_frequency).getD 0) = 0 ↔
      (((alook (compute_dora_from_prs fromiso prs) target_day).map
        DayMetrics.deployment_frequency).getD 0) = 0 := by
    rw [hval, pyInt_natCast]
    constructor
    · intro h
      exact_mod_cast h
    · intro h
      exact_mod_cast h
  -- the condition of the bus_factor branch is equivalent to the claim's
  have hcond : (most_common5 (tally (authorsOf dayStr prs target_day)) ≠ [] ∧
      (((most_common5 (tally (authorsOf dayStr prs target_day))).headD ("", 0)).2 : ℚ) /
          ((max 1 (((tally (authorsOf dayStr prs target_day)).map Prod.snd).sum) : ℕ) : ℚ) ≥
        0.8) ↔
      (tally (authorsOf dayStr prs target_day) ≠ [] ∧
        (0.8 : ℚ) * (((tally (authorsOf dayStr prs target_day)).map Prod.snd).sum : ℚ) ≤
          ((((tally (authorsOf dayStr prs target_day)).map Prod.snd).foldr max 0 : ℕ) : ℚ)) := by
    by_cases hC : tally (authorsOf dayStr prs target_day) = []
    · simp [hC, most_common5, List.mergeSort]
    · obtain ⟨hmem, hmax⟩ := mergeSort_head_max (tally (authorsOf dayStr prs target_day)) hC
      have hsne : (tally (authorsOf dayStr prs target_day)).mergeSort
          (fun x y => decide (y.2 ≤ x.2)) ≠ [] := by
        intro hnil
        apply hC
        have hlen : (tally (authorsOf dayStr prs target_day)).length = 0 := by
          rw [← @List.length_mergeSort (String × ℕ) (fun x y => decide (y.2 ≤ x.2))
            (tally (authorsOf dayStr prs target_day)), hnil]
          rfl
        exact List.length_eq_zero.mp hlen
      have htop : most_common5 (tally (authorsOf dayStr prs target_day)) ≠ [] :=
        take5_ne_nil _ hsne
      have hhd : (most_common5 (tally (authorsOf dayStr prs target_day))).headD ("", 0) =
          ((tally (authorsOf dayStr prs target_day)).mergeSort
            (fun x y => decide (y.2 ≤ x.2))).headD ("", 0) := take5_headD _ _
      -- the head of the sorted tally realizes the maximum count
      have hmx : (((tally (authorsOf dayStr prs target_day)).map Prod.snd).foldr max 0) =
          (((tally (authorsOf dayStr prs target_day)).mergeSort
            (fun x y => decide (y.2 ≤ x.2))).headD ("", 0)).2 := by
        apply Nat.le_antisymm
        · apply foldr_max_le
          intro x hx
          obtain ⟨p, hp, hpx⟩ := List.mem_map.mp hx
          exact hpx ▸ hmax p hp
        · exact le_foldr_max _ _ (List.mem_map_of_mem Prod.snd hmem)
      -- the tally total is at least 1
      have htot : 1 ≤ ((tally (authorsOf dayStr prs target_day)).map Prod.snd).sum := by
        rcases hC2 : tally (authorsOf dayStr prs target_day) with _ | ⟨c, rest⟩
        · exact absurd hC2 hC
        · have hc1 : 1 ≤ c.2 := tally_pos _ c (hC2 ▸ List.mem_cons_self _ _)
          calc 1 ≤ c.2 := hc1
            _ ≤ (List.map Prod.snd (c :: rest)).sum := by
                simp only [List.map_cons, List.sum_cons]
                omega
      have hmaxed : max 1 (((tally (authorsOf dayStr prs target_day)).map Prod.snd).sum) =
          ((tally (authorsOf dayStr prs target_day)).map Prod.snd).sum :=
        Nat.max_eq_right htot
      have htotpos : (0 : ℚ) <
          ((((tally (authorsOf dayStr prs target_day)).map Prod.snd).sum : ℕ) : ℚ) := by
        exact_mod_cast htot
      constructor
      · rintro ⟨-, hge⟩
        refine ⟨hC, ?_⟩
        rw [hhd, hmaxed] at hge
        rw [hmx]
        exact (le_div_iff₀ htotpos).mp hge
      · rintro ⟨-, hge⟩
        refine ⟨htop, ?_⟩
        rw [hhd, hmaxed]
        rw [hmx] at hge
        exact (le_div_iff₀ htotpos).mpr hge
  refine ⟨?_, ?_, ?_, ?_⟩
  · show "no_deployments" ∈
        (if pyInt (((alook (compute_dora_from_prs fromiso prs) target_day).map
            DayMetrics.deployment_frequency).getD 0) = 0 then ["no_deployments"] else []) ++
          (if most_common5 (tally (authorsOf dayStr prs target_day)) ≠ [] ∧
              (((most_common5 (tally (authorsOf dayStr prs target_day))).headD ("", 0)).2 : ℚ) /
                  ((max 1 (((tally (authorsOf dayStr prs target_day)).map
                    Prod.snd).sum) : ℕ) : ℚ) ≥ 0.8
            then ["bus_factor"] else []) ↔ _
    by_cases h1 : pyInt (((alook (compute_dora_from_prs fromiso prs) target_day).map
        DayMetrics.deployment_frequency).getD 0) = 0
    · simp only [if_pos h1]
      constructor
      · intro _
        exact hiff.mp h1
      · intro _
        exact List.mem_append_left _ (List.mem_singleton.mpr rfl)
    · rw [if_neg h1, List.nil_append]
      constructor
      · intro hm
        by_cases h2 : most_common5 (tally (authorsOf dayStr prs target_day)) ≠ [] ∧
            (((most_common5 (tally (authorsOf dayStr prs target_day))).headD ("", 0)).2 : ℚ) /
                ((max 1 (((tally (authorsOf dayStr prs target_day)).map
                  Prod.snd).sum) : ℕ) : ℚ) ≥ 0.8
        · rw [if_pos h2] at hm
          simp at hm
        · rw [if_neg h2] at hm
          simp at hm
      · intro hv
        exact absurd (hiff.mpr hv) h1
  · show "bus_factor" ∈
        (if pyInt (((alook (compute_dora_from_prs fromiso prs) target_day).map
            DayMetrics.deployment_frequency).getD 0) = 0 then ["no_deployments"] else []) ++
          (if most_common5 (tally (authorsOf dayStr prs target_day)) ≠ [] ∧
              (((most_common5 (tally (authorsOf dayStr prs target_day))).headD ("", 0)).2 : ℚ) /
                  ((max 1 (((tally (authorsOf dayStr prs target_day)).map
                    Prod.snd).sum) : ℕ) : ℚ) ≥ 0.8
            then ["bus_factor"] else []) ↔ _
    rw [← hcond]
    by_cases h2 : most_common5 (tally (authorsOf dayStr prs target_day)) ≠ [] ∧
        (((most_common5 (tally (authorsOf dayStr prs target_day))).headD ("", 0)).2 : ℚ) /
            ((max 1 (((tally (authorsOf dayStr prs target_day)).map
              Prod.snd).sum) : ℕ) : ℚ) ≥ 0.8
    · simp only [if_pos h2]
      constructor
      · intro _
        exact h2
      · intro _
        exact List.mem_append_right _ (List.mem_singleton.mpr rfl)
    · rw [if_neg h2]
      constructor
      · intro hm
        rw [List.append_nil] at hm
        by_cases h1 : pyInt (((alook (compute_dora_from_prs fromiso prs) target_day).map
            DayMetrics.deployment_frequency).getD 0) = 0
        · rw [if_pos h1] at hm
          simp at hm
        · rw [if_neg h1] at hm
          simp at hm
      · intro hv
        exact absurd hv h2
  · show (most_common5 (tally (authorsOf dayStr prs target_day))).length ≤ 5
    exact le_trans (List.length_take_le _ _) (le_refl 5)
  · show List.Pairwise (fun x y : String × ℕ => y.2 ≤ x.2)
      (most_common5 (tally (authorsOf dayStr prs target_day)))
    have hpw := @List.sorted_mergeSort (String × ℕ) (fun x y => decide (y.2 ≤ x.2))
      (by intro a b c hab hbc
          simp only [decide_eq_true_eq] at hab hbc ⊢
          omega)
      (by intro a b
          simp only [Bool.or_eq_true, decide_eq_true_eq]
          omega)
      (tally (authorsOf dayStr prs target_day))
    have hpw2 : List.Pairwise (fun x y : String × ℕ => y.2 ≤ x.2)
        ((tally (authorsOf dayStr prs target_day)).mergeSort
          (fun x y => decide (y.2 ≤ x.2))) := by
      refine hpw.imp ?_
      intro a b hab
      simpa using hab
    exact hpw2.sublist (List.take_sublist _ _)

/-! ## Correlation engine (`business.calculate_correlation`) -/

/-- The paired observations that survive the `None` filter (business.py
line 28): positions where both series have a value. -/
def pairsOf (x_values y_values : List (Option ℚ)) : List (ℚ × ℚ) :=
  (x_values.zip y_values).filterMap (fun p =>
    match p with
    | (some x, some y) => some (x, y)
    | _ => none)

/-- `mean_x` over the surviving pairs. -/
def meanX (x_values y_values : List (Option ℚ)) : ℚ :=
  ((pairsOf x_values y_values).map Prod.fst).sum / ((pairsOf x_values y_values).length : ℚ)

/-- `mean_y` over the surviving pairs. -/
def meanY (x_values y_values : List (Option ℚ)) : ℚ :=
  ((pairsOf x_values y_values).map Prod.snd).sum / ((pairsOf x_values y_values).length : ℚ)

/-- `sum_sq_x`: the centered sum of squares of the first series. -/
def sumSqX (x_values y_values : List (Option ℚ)) : ℚ :=
  ((pairsOf x_values y_values).map (fun p => (p.1 - meanX x_values y_values) ^ 2)).sum

/-- `sum_sq_y`: the centered sum of squares of the second series. -/
def sumSqY (x_values y_values : List (Option ℚ)) : ℚ :=
  ((pairsOf x_values y_values).map (fun p => (p.2 - meanY x_values y_values) ^ 2)).sum

/-- The `numerator`: the centered cross sum. -/
def corrNum (x_values y_values : List (Option ℚ)) : ℚ :=
  ((pairsOf x_values y_values).map
    (fun p => (p.1 - meanX x_values y_values) * (p.2 - meanY x_values y_values))).sum

/-- `business.calculate_correlation` (business.py lines 17-49): `none`
for mismatched lengths, fewer than 3 raw entries, fewer than 3 surviving
pairs, or a zero denominator; otherwise the Pearson coefficient. The
square root forces the result into `ℝ`. -/
noncomputable def calculate_correlation (x_values y_values : List (Option ℚ)) : Option ℝ :=
  if x_values.length ≠ y_values.length ∨ x_values.length < 3 then none
  else if (pairsOf x_values y_values).length < 3 then none
  else if Real.sqrt ((sumSqX x_values y_values : ℝ) * (sumSqY x_values y_values : ℝ)) = 0
    then none
  else some ((corrNum x_values y_values : ℝ) /
    Real.sqrt ((sumSqX x_values y_values : ℝ) * (sumSqY x_values y_values : ℝ)))

theorem two_mul_le_of_sq_le (x y t : ℚ) (hx : 0 ≤ x) (hy : 0 ≤ y) (ht : t ^ 2 ≤ x * y) :
    2 * t ≤ x + y := by
  nlinarith [sq_nonneg (x - y), sq_nonneg (x + y)]

/-- Cauchy-Schwarz for lists of pairs, by induction. -/
theorem list_cauchy_schwarz (l : List (ℚ × ℚ)) :
    ((l.map (fun p => p.1 * p.2)).sum) ^ 2 ≤
      ((l.map (fun p => p.1 ^ 2)).sum) * ((l.map (fun p => p.2 ^ 2)).sum) := by
  induction l with
  | nil => simp
  | cons hd t ih =>
    obtain ⟨a, b⟩ := hd
    have hA : (0 : ℚ) ≤ (t.map (fun p => p.1 ^ 2)).sum :=
      List.sum_nonneg (by
        intro x hx
        obtain ⟨p, hp, hpx⟩ := List.mem_map.mp hx
        exact hpx ▸ sq_nonneg _)
    have hB : (0 : ℚ) ≤ (t.map (fun p => p.2 ^ 2)).sum :=
      List.sum_nonneg (by
        intro x hx
        obtain ⟨p, hp, hpx⟩ := List.mem_map.mp hx
        exact hpx ▸ sq_nonneg _)
    have key : 2 * (a * b * (t.map (fun p => p.1 * p.2)).sum) ≤
        a ^ 2 * (t.map (fun p => p.2 ^ 2)).sum + b ^ 2 * (t.map (fun p => p.1 ^ 2)).sum := by
      apply two_mul_le_of_sq_le _ _ _ (by positivity) (by positivity)
      nlinarith [ih, sq_nonneg (a * b)]
    simp only [List.map_cons, List.sum_cons]
    nlinarith [key, ih]

/-- C6. For equal-length series, `calculate_correlation` is `none` exactly
when fewer than 3 pairs with both values present remain or the product of
the centered sums of squares (equivalently, of the variances) is zero;
otherwise the returned coefficient lies in [-1, 1]. -/
theorem calculate_correlation_spec (x_values y_values : List (Option ℚ))
    (hlen : x_values.length = y_values.length) :
    (calculate_correlation x_values y_values = none ↔
      ((pairsOf x_values y_values).length < 3 ∨
        sumSqX x_values y_values * sumSqY x_values y_values = 0)) ∧
    ∀ r : ℝ, calculate_correlation x_values y_values = some r → -1 ≤ r ∧ r ≤ 1 := by
  have hsx : (0 : ℚ) ≤ sumSqX x_values y_values :=
    List.sum_nonneg (by
      intro x hx
      obtain ⟨p, hp, hpx⟩ := List.mem_map.mp hx
      exact hpx ▸ sq_nonneg _)
  have hsy : (0 : ℚ) ≤ sumSqY x_values y_values :=
    List.sum_nonneg (by
      intro x hx
      obtain ⟨p, hp, hpx⟩ := List.mem_map.mp hx
      exact hpx ▸ sq_nonneg _)
  have hprod : (0 : ℚ) ≤ sumSqX x_values y_values * sumSqY x_values y_values :=
    mul_nonneg hsx hsy
  have hsqrt0 : Real.sqrt ((sumSqX x_values y_values : ℝ) * (sumSqY x_values y_values : ℝ)) = 0 ↔
      sumSqX x_values y_values * sumSqY x_values y_values = 0 := by
    rw [Real.sqrt_eq_zero (by exact_mod_cast hprod)]
    constructor
    · intro h
      exact_mod_cast h
    · intro h
      exact_mod_cast h
  have hpairs_le : (pairsOf x_values y_values).length ≤ x_values.length := by
    have h1 : (pairsOf x_values y_values).length ≤ (x_values.zip y_values).length :=
      List.length_filterMap_le _ _
    have h2 : (x_values.zip y_values).length = min x_values.length y_values.length :=
      List.length_zip ..
    omega
  have hcs : (corrNum x_values y_values) ^ 2 ≤
      sumSqX x_values y_values * sumSqY x_values y_values := by
    have h := list_cauchy_schwarz ((pairsOf x_values y_values).map
      (fun p => (p.1 - meanX x_values y_values, p.2 - meanY x_values y_values)))
    simpa [List.map_map, Function.comp, corrNum, sumSqX, sumSqY] using h
  constructor
  · by_cases h1 : x_values.length < 3
    · have h2 : (pairsOf x_values y_values).length < 3 := by omega
      simp [calculate_correlation, h1, h2]
    · by_cases h2 : (pairsOf x_values y_values).length < 3
      · simp [calculate_correlation, h1, h2, hlen]
      · by_cases h3 : sumSqX x_values y_values * sumSqY x_values y_values = 0
        · simp [calculate_correlation, h1, h2, hlen, hsqrt0.mpr h3, h3]
        · have h4 : ¬ Real.sqrt ((sumSqX x_values y_values : ℝ) *
              (sumSqY x_values y_values : ℝ)) = 0 := fun hh => h3 (hsqrt0.mp hh)
          simp [calculate_correlation, h1, h2, hlen, h4, h3]
          omega
  · intro r hr
    by_cases h1 : x_values.length ≠ y_values.length ∨ x_values.length < 3
    · simp [calculate_correlation, h1] at hr
    · by_cases h2 : (pairsOf x_values y_values).length < 3
      · simp [calculate_correlation, h1, h2] at hr
      · by_cases h3 : Real.sqrt ((sumSqX x_values y_values : ℝ) *
            (sumSqY x_values y_values : ℝ)) = 0
        · simp [calculate_correlation, h1, h2, h3] at hr
        · simp only [calculate_correlation, if_neg h1, if_neg h2, if_neg h3,
            Option.some.injEq] at hr
          have hppos : (0 : ℝ) < (sumSqX x_values y_values : ℝ) *
              (sumSqY x_values y_values : ℝ) := by
            rcases lt_or_eq_of_le hprod with h | h
            · exact_mod_cast h
            · exact absurd (hsqrt0.mpr h.symm) h3
          have hr2 : r ^ 2 ≤ 1 := by
            rw [← hr, div_pow, Real.sq_sqrt (le_of_lt hppos)]
            rw [div_le_one hppos]
            exact_mod_cast hcs
          have habs : |r| ≤ 1 := (sq_le_one_iff_abs_le_one r).mp hr2
          exact abs_le.mp habs

/-- A concrete series for the C6 witness. -/
def corrL : List (Option ℚ) :=
  [some 0, some 1, some 2]

/-- C6 witness: the correlation of `[0, 1, 2]` with itself is defined and
equals 1, within the proved bounds. -/
theorem calculate_correlation_spec_witness :
    corrL.length = corrL.length ∧ ((-1 : ℝ) ≤ 1 ∧ (1 : ℝ) ≤ 1) := by
  refine ⟨rfl, ?_⟩
  have hp : pairsOf corrL corrL = [(0, 0), (1, 1), (2, 2)] := by
    decide
  have hmx : meanX corrL corrL = 1 := by
    norm_num [meanX, hp]
  have hmy : meanY corrL corrL = 1 := by
    norm_num [meanY, hp]
  have hsx : sumSqX corrL corrL = 2 := by
    norm_num [sumSqX, hp, hmx]
  have hsy : sumSqY corrL corrL = 2 := by
    norm_num [sumSqY, hp, hmy]
  have hnum : corrNum corrL corrL = 2 := by
    norm_num [corrNum, hp, hmx, hmy]
  have hs2 : Real.sqrt (((2 : ℚ) : ℝ) * ((2 : ℚ) : ℝ)) = 2 := by
    rw [show ((2 : ℚ) : ℝ) * ((2 : ℚ) : ℝ) = (2 : ℝ) ^ 2 by norm_num]
    exact Real.sqrt_sq (by norm_num)
  have hcond1 : ¬ (corrL.length ≠ corrL.length ∨ corrL.length < 3) := by decide
  have hcond2 : ¬ ((pairsOf corrL corrL).length < 3) := by
    rw [hp]
    decide
  have hsome : calculate_correlation corrL corrL = some 1 := by
    unfold calculate_correlation
    rw [if_neg hcond1, hsx, hsy, hnum, hs2]
    rw [if_neg hcond2, if_neg (by norm_num : ¬ (2 : ℝ) = 0)]
    norm_num
  exact (calculate_correlation_spec corrL corrL rfl).2 1 hsome

/-! ## Cross-series composition (`business.compute_correlations`) -/

/-- A row of the `dora_metrics` aggregation query (values nullable in the
database model). -/
structure DoraDBRow where
  deployment_frequency : Option ℚ
  avg_lead_time_minutes : Option ℚ
  change_failure_rate : Option ℚ
  mttr_minutes : Option ℚ
deriving DecidableEq, Repr

/-- A row of the `business_metrics` query (nullable columns). -/
structure BizDBRow where
  revenue : Option ℚ
  customer_satisfaction_score : Option ℚ
  incidents : Option ℚ
  customer_churn_rate : Option ℚ
  uptime_percentage : Option ℚ
deriving DecidableEq, Repr

/-- `{row["date"]: row for row in rows}` followed by `[d]`: the last row
with a given date wins. -/
def lastLook {α : Type} (rows : List (ℤ × α)) (d : ℤ) : Option α :=
  alook rows.reverse d

/-- `sorted(set(dora_by_date) & set(business_by_date))`. -/
def commonDates (doraRows : List (ℤ × DoraDBRow)) (bizRows : List (ℤ × BizDBRow)) : List ℤ :=
  ((doraRows.map Prod.fst).toFinset ∩ (bizRows.map Prod.fst).toFinset).sort (· ≤ ·)

/-- Python truthiness conjoined with `> t` for an optional float, as in
`if correlations[k] and correlations[k] > 0.3`. -/
def truthyGT (o : Option ℝ) (t : ℝ) : Prop :=
  match o with
  | none => False
  | some r => r ≠ 0 ∧ t < r

/-- Python truthiness conjoined with `< t`. -/
def truthyLT (o : Option ℝ) (t : ℝ) : Prop :=
  match o with
  | none => False
  | some r => r ≠ 0 ∧ r < t

noncomputable instance (o : Option ℝ) (t : ℝ) : Decidable (truthyGT o t) :=
  match o with
  | none => isFalse id
  | some r => inferInstanceAs (Decidable (r ≠ 0 ∧ t < r))

noncomputable instance (o : Option ℝ) (t : ℝ) : Decidable (truthyLT o t) :=
  match o with
  | none => isFalse id
  | some r => inferInstanceAs (Decidable (r ≠ 0 ∧ r < t))

/-- One generated insight; its `type` and fixed `recommendation` strings.
The `insight` sentence (via `interpret_correlation`) is presentation-only
text and is not modelled. -/
structure Insight where
  itype : String
  recommendation : String
deriving DecidableEq, Repr

/-- The result of `compute_correlations`: `period` is the
(start, end, days) triple of the success branch, absent on
insufficient data; the insufficient-data `message` string is
presentation-only and not modelled. -/
structure CorrResult where
  status : String
  correlations : List (String × Option ℝ)
  insights : List Insight
  period : Option (ℤ × ℤ × ℕ)

/-- The pure core of `business.compute_correlations` (business.py lines
319-398), applied to the fetched row lists: index both series by date,
intersect the date sets, refuse fewer than 7 overlapping dates, otherwise
extract the aligned series over the common dates and compute the fixed
battery of eight correlations plus threshold-gated insights. -/
noncomputable def compute_correlations_core (doraRows : List (ℤ × DoraDBRow))
    (bizRows : List (ℤ × BizDBRow)) : CorrResult :=
  let common := commonDates doraRows bizRows
  if common.length < 7 then
    { status := "insufficient_data", correlations := [], insights := [], period := none }
  else
    let dfv := common.map (fun d => (lastLook doraRows d).bind DoraDBRow.deployment_frequency)
    let ltv := common.map (fun d => (lastLook doraRows d).bind DoraDBRow.avg_lead_time_minutes)
    let cfrv := common.map (fun d => (lastLook doraRows d).bind DoraDBRow.change_failure_rate)
    let mttrv := common.map (fun d => (lastLook doraRows d).bind DoraDBRow.mttr_minutes)
    let revv := common.map (fun d => (lastLook bizRows d).bind BizDBRow.revenue)
    let satv := common.map (fun d =>
      (lastLook bizRows d).bind BizDBRow.customer_satisfaction_score)
    let incv := common.map (fun d => (lastLook bizRows d).bind BizDBRow.incidents)
    let churnv := common.map (fun d => (lastLook bizRows d).bind BizDBRow.customer_churn_rate)
    let uptv := common.map (fun d => (lastLook bizRows d).bind BizDBRow.uptime_percentage)
    let insights : List Insight :=
      (if truthyGT (calculate_correlation dfv revv) 0.3 then
        [{ itype := "positive",
           recommendation :=
             "Continue investing in deployment automation to drive revenue growth" }]
      else []) ++
      (if truthyGT (calculate_correlation cfrv incv) 0.3 then
        [{ itype := "warning",
           recommendation :=
             "Improve testing and code review processes to reduce production incidents" }]
      else []) ++
      (if truthyLT (calculate_correlation mttrv satv) (-0.3) then
        [{ itype := "positive",
           recommendation := "Invest in observability and incident response automation" }]
      else []) ++
      (if truthyLT (calculate_correlation ltv satv) (-0.3) then
        [{ itype := "positive",
           recommendation :=
             "Focus on reducing cycle time through smaller batches and automation" }]
      else [])
    { status := "success"
      correlations :=
        [("df_revenue", calculate_correlation dfv revv),
         ("df_satisfaction", calculate_correlation dfv satv),
         ("leadtime_revenue", calculate_correlation ltv revv),
         ("leadtime_satisfaction", calculate_correlation ltv satv),
         ("cfr_incidents", calculate_correlation cfrv incv),
         ("cfr_churn", calculate_correlation cfrv churnv),
         ("mttr_satisfaction", calculate_correlation mttrv satv),
         ("mttr_uptime", calculate_correlation mttrv uptv)]
      insights := insights
      period := some (common.headD 0, common.getLastD 0, common.length) }

/-- C5. With fewer than 7 overlapping dates the result is the explicit
"insufficient_data" status with an empty correlations map and no
insights; and (for any inputs) every date of the aligned input is present
in both stored series — dates on one side only are excluded, never
imputed. -/
theorem correlations_insufficient_data (doraRows : List (ℤ × DoraDBRow))
    (bizRows : List (ℤ × BizDBRow))
    (h : (commonDates doraRows bizRows).length < 7) :
    (compute_correlations_core doraRows bizRows).status = "insufficient_data" ∧
      (compute_correlations_core doraRows bizRows).correlations = [] ∧
      (compute_correlations_core doraRows bizRows).insights = [] ∧
      ∀ d ∈ commonDates doraRows bizRows,
        d ∈ doraRows.map Prod.fst ∧ d ∈ bizRows.map Prod.fst := by
  refine ⟨?_, ?_, ?_, ?_⟩
  · simp [compute_correlations_core, h]
  · simp [compute_correlations_core, h]
  · simp [compute_correlations_core, h]
  · intro d hd
    rw [commonDates, Finset.mem_sort] at hd
    have hd2 := Finset.mem_inter.mp hd
    exact ⟨List.mem_toFinset.mp hd2.1, List.mem_toFinset.mp hd2.2⟩

/-- C5 witness: two empty stored series share 0 < 7 dates. -/
theorem correlations_insufficient_data_witness :
    (commonDates [] []).length < 7 ∧
      ((compute_correlations_core [] []).status = "insufficient_data" ∧
        (compute_correlations_core [] []).correlations = [] ∧
        (compute_correlations_core [] []).insights = [] ∧
        ∀ d ∈ commonDates [] [], d ∈ ([] : List (ℤ × DoraDBRow)).map Prod.fst ∧
          d ∈ ([] : List (ℤ × BizDBRow)).map Prod.fst) := by
  have h : (commonDates [] []).length < 7 := by
    simp [commonDates]
  exact ⟨h, correlations_insufficient_data [] [] h⟩

end MCPMetrics